import Mathlib

/-!
# algia: relay selection, fan-out and follow cache

A shallow embedding of `main.go` (package `main` of algia 0.0.3) and the
properties of its relay layer.

Conventions of the embedding
* a Go `map[string]T` is the list of its entries in the order in which one
  `range` loop yields them; theorems quantified over all lists therefore hold
  for every map and every iteration order;
* library calls (`nostr.RelayConnect`, `relay.Publish`, `relay.QuerySync`,
  `json.Unmarshal`, `nip19.Decode`, `cfg.save`, `time.Now`) are parameters;
* a live `*nostr.Relay` is represented by the URL it was connected to;
* Go strings are Lean strings (sequences of Unicode code points); instants of
  `time.Time` are integers counting nanoseconds;
* text written to the terminal, which `cfg.verbose` only adds to, is left out;
* a failed type assertion `x.(string)` on a value returned by `nip19.Decode`
  ends the command in a panic, recorded in the result of the write commands.
-/

namespace Algia

/-! ## Data model (main.go 29-56) -/

/-- Capability record `Relay` (main.go 29-33). -/
structure Relay where
  Read : Bool
  Write : Bool
  Search : Bool
  deriving DecidableEq, Repr

/-- Record `Profile` (main.go 48-56). -/
structure Profile where
  Website : String
  Nip05 : String
  Picture : String
  Lud16 : String
  DisplayName : String
  About : String
  Name : String
  deriving DecidableEq, Repr

/-- A Go `map[string]β`, as the list of its entries in iteration order. -/
abbrev GoMap (β : Type) := List (String × β)

/-- Keys of a map, in iteration order. -/
def GoMap.keys {β : Type} (m : GoMap β) : List String := m.map Prod.fst

/-- Map read `m[k]` with the comma-ok result. -/
def GoMap.get {β : Type} : GoMap β → String → Option β
  | [], _ => none
  | (k', v) :: rest, k => if k' = k then some v else GoMap.get rest k

/-- Map write `m[k] = v`: an existing entry is overwritten in place, a new key
is added. -/
def GoMap.set {β : Type} : GoMap β → String → β → GoMap β
  | [], k, v => [(k, v)]
  | (k', v') :: rest, k, v =>
    if k' = k then (k, v) :: rest else (k', v') :: GoMap.set rest k v

/-- Record `Config` (main.go 35-41); `Updated` is the instant in nanoseconds. -/
structure Config where
  Relays : GoMap Relay
  Follows : GoMap Profile
  PrivateKey : String
  Updated : Int
  verbose : Bool
  deriving DecidableEq, Repr

/-! ## Capability filter (main.go 98-106 and 123-131) -/

/-- The three `continue` guards that open the loop body of both
`Config.FindRelay` and `Config.Do`: `true` when entry `v` is skipped for
request `r`. -/
def skipped (r v : Relay) : Bool :=
  if r.Write && !v.Write then true
  else if r.Search && !v.Search then true
  else if !r.Write && !v.Read then true
  else false

/-- Entries of the registry that get past the guards, in iteration order. -/
def matching (r : Relay) (relays : GoMap Relay) : GoMap Relay :=
  relays.filter (fun e => !skipped r e.2)

/-- Request literal `Relay{Write: true}`. -/
def writeRequest : Relay := { Read := false, Write := true, Search := false }

/-- Request literal `Relay{Search: true}`. -/
def searchRequest : Relay := { Read := false, Write := false, Search := true }

/-- Request literal `Relay{Read: true}`. -/
def readRequest : Relay := { Read := true, Write := false, Search := false }

/-- Registry of the scenario: A write-only, B read+write, C search-only. -/
def scenarioRegistry : GoMap Relay :=
  [("A", { Read := false, Write := true, Search := false }),
   ("B", { Read := true, Write := true, Search := false }),
   ("C", { Read := false, Write := false, Search := true })]

/-! ## Single-endpoint selection (main.go 96-118) -/

/-- `Config.FindRelay`: walks the registry, skips filtered entries, calls
`nostr.RelayConnect` on the others and returns at the first success.  The
first component lists the URLs handed to `RelayConnect`, in call order; the
second is the returned session (`none` for `nil`). -/
def FindRelay (RelayConnect : String → Bool) (r : Relay) :
    GoMap Relay → List String × Option String
  | [] => ([], none)
  | (k, v) :: rest =>
    if skipped r v then FindRelay RelayConnect r rest
    else if RelayConnect k then ([k], some k)
    else
      let out := FindRelay RelayConnect r rest
      (k :: out.1, out.2)

/-! ## External values used by the read commands -/

/-- A Go `error` value: `none` is `nil`, `some msg` an error with that text. -/
abbrev GoError := Option String

/-- The fields of `nostr.Filter` that main.go sets. -/
structure Filter where
  Kinds : List Int
  IDs : List String
  Authors : List String
  Search : String
  Limit : Int
  deriving DecidableEq, Repr

/-- The fields of `nostr.Event` that main.go reads. -/
structure NostrEvent where
  ID : String
  PubKey : String
  Content : String
  deriving DecidableEq, Repr

/-- Constant `nostr.KindSetMetadata`. -/
def KindSetMetadata : Int := 0
/-- Constant `nostr.KindTextNote`. -/
def KindTextNote : Int := 1
/-- Constant `nostr.KindContactList`. -/
def KindContactList : Int := 3

/-- Calls that leave the process, in the order in which they are made. -/
inductive Effect where
  /-- Call `nostr.RelayConnect(ctx, url)`. -/
  | connect (url : String)
  /-- Call `relay.QuerySync(ctx, f)` on the session of `url`. -/
  | querySync (url : String) (f : Filter)
  /-- Call `cfg.save(profile)` with the configuration as it is then. -/
  | save (cfg : Config)
  /-- Call `relay.Subscribe(ctx, filters)`. -/
  | subscribe (url : String) (filters : List Filter)
  /-- Call `relay.Publish(ctx, ev)`. -/
  | publish (url : String)
  /-- Call `relay.Close()`. -/
  | close (url : String)
  deriving DecidableEq, Repr

/-- What the read commands get from outside. -/
structure Env where
  /-- Whether `nostr.RelayConnect` on the URL returns `err == nil`. -/
  RelayConnect : String → Bool
  /-- Result set of `relay.QuerySync` on the session of the URL. -/
  QuerySync : String → Filter → List NostrEvent
  /-- Result of `json.Unmarshal([]byte(content), &profile)`: `none` when
  `err != nil`. -/
  Unmarshal : String → Option Profile
  /-- Result of `cfg.save(cCtx.String("a"))`. -/
  save : Config → GoError
  /-- Reading of `time.Now()` in the staleness test (lines 480, 580). -/
  now : Int
  /-- Reading of `time.Now()` assigned to `cfg.Updated` (lines 504, 604). -/
  nowSet : Int

/-- Constant `time.Hour`, a `time.Duration` in nanoseconds. -/
def Hour : Int := 60 * (60 * (1000 * (1000 * 1000)))

/-- Filter literal `nostr.Filter{Kinds: []int{nostr.KindContactList}}`. -/
def contactFilter : Filter :=
  { Kinds := [KindContactList], IDs := [], Authors := [], Search := "", Limit := 0 }

/-- Filter literal `nostr.Filter{Kinds: []int{nostr.KindSetMetadata},
Authors: follows}`. -/
def metadataFilter (follows : List String) : Filter :=
  { Kinds := [KindSetMetadata], IDs := [], Authors := follows, Search := "", Limit := 0 }

/-! ## Follow cache (main.go 478-512 in doSearch, 578-612 in doTimeline) -/

/-- Result of the follow-cache block. -/
structure FollowOut where
  /-- The configuration after the block. -/
  cfg : Config
  /-- The local slice `follows` after the block. -/
  follows : List String
  /-- Calls made by the block. -/
  effects : List Effect
  /-- The error with which the command returns from inside the block, if any. -/
  err : GoError
  deriving DecidableEq, Repr

/-- Loop of lines 495-501 / 595-601: every event whose content unmarshals
without error is stored under its `PubKey`. -/
def storeProfiles (Unmarshal : String → Option Profile) :
    List NostrEvent → GoMap Profile → GoMap Profile
  | [], m => m
  | ev :: evs, m =>
    match Unmarshal ev.Content with
    | some profile => storeProfiles Unmarshal evs (GoMap.set m ev.PubKey profile)
    | none => storeProfiles Unmarshal evs m

/-- The block `// get followers`, identical in doSearch and doTimeline. -/
def followCache (env : Env) (relay : String) (cfg : Config) : FollowOut :=
  if decide (cfg.Updated + 3 * Hour < env.now) || cfg.Follows.length == 0 then
    let follows := (env.QuerySync relay contactFilter).map (fun ev => ev.PubKey)
    let fetched : GoMap Profile × List Effect :=
      if follows.length > 0 then
        (storeProfiles env.Unmarshal (env.QuerySync relay (metadataFilter follows)) [],
          [Effect.querySync relay (metadataFilter follows)])
      else ([], [])
    let cfg1 : Config := { cfg with Follows := fetched.1, Updated := env.nowSet }
    { cfg := cfg1
      follows := follows
      effects := Effect.querySync relay contactFilter :: fetched.2 ++ [Effect.save cfg1]
      err := env.save cfg1 }
  else
    { cfg := cfg
      follows := GoMap.keys cfg.Follows
      effects := []
      err := none }

/-! ## Read commands (main.go 466-564 and 566-664) -/

/-- Result of a command: the returned error, the configuration afterwards and
the calls that left the process.  Text written to the terminal is not
recorded. -/
structure CmdOut where
  err : GoError
  cfg : Config
  effects : List Effect
  deriving DecidableEq, Repr

/-- Shared shape of doSearch and doTimeline: select one relay with `request`,
run the follow-cache block, subscribe with the filter built from `follows`,
print the stored events and return `nil`; the deferred `relay.Close()` runs on
every return after the selection succeeded. -/
def readCommand (env : Env) (request : Relay) (mkFilter : List String → Filter)
    (cfg : Config) : CmdOut :=
  let found := FindRelay env.RelayConnect request cfg.Relays
  match found.2 with
  | none =>
    { err := some "cannot connect relays", cfg := cfg,
      effects := found.1.map Effect.connect }
  | some relay =>
    let fc := followCache env relay cfg
    match fc.err with
    | some e =>
      { err := some e, cfg := fc.cfg,
        effects := found.1.map Effect.connect ++ fc.effects ++ [Effect.close relay] }
    | none =>
      { err := none, cfg := fc.cfg,
        effects := found.1.map Effect.connect ++ fc.effects ++
          [Effect.subscribe relay [mkFilter fc.follows], Effect.close relay] }

/-- Command `doSearch` with flag `n` and the search words `args`. -/
def doSearch (env : Env) (n : Int) (args : List String) (cfg : Config) : CmdOut :=
  readCommand env searchRequest
    (fun _ => { Kinds := [KindTextNote], IDs := [], Authors := [],
                Search := " ".intercalate args, Limit := n }) cfg

/-- Command `doTimeline` with flag `n`. -/
def doTimeline (env : Env) (n : Int) (cfg : Config) : CmdOut :=
  readCommand env readRequest
    (fun follows => { Kinds := [KindTextNote], IDs := [], Authors := follows,
                      Search := "", Limit := n }) cfg

/-! ## Fan-out (main.go 120-148) and the write commands (main.go 170-464)

`Config.Do` starts one goroutine per matching entry and waits for all of them.
Each goroutine is a worker with a program counter; one step of a worker is one
library call or one operation on an atomic variable.  Go's atomics are
sequentially consistent, so an execution is an interleaving of worker steps,
chosen by a schedule (a list of worker indices).  The value of the event being
published (its tags and signature) is not tracked: the publish status of each
relay is a parameter. -/

/-- Type `nostr.Status`, the result of `relay.Publish`. -/
inductive Status where
  | PublishStatusSent
  | PublishStatusFailed
  | PublishStatusSucceeded
  deriving DecidableEq, Repr

/-- The five commands that publish through `cfg.Do(Relay{Write: true}, ...)`. -/
inductive WriteCmd where
  | post
  | reply
  | repost
  | like
  | delete
  deriving DecidableEq, Repr

/-- The value of static type `any` that `nip19.Decode` returns next to the
prefix when `err == nil`. -/
inductive Decoded where
  /-- A Go `string` (prefixes `nsec`, `npub`, `note`). -/
  | str (s : String)
  /-- A pointer record (prefixes `nprofile`, `nevent`, `naddr`): on such a value
  the type assertion `x.(string)` panics. -/
  | pointer
  deriving DecidableEq, Repr

/-- How a write command can stop before its fan-out. -/
inductive Abort where
  /-- The command returns the error with this text. -/
  | returns (msg : String)
  /-- The process dies in a failed type assertion `x.(string)`. -/
  | panics
  deriving DecidableEq, Repr

/-- What the write commands get from outside. -/
structure WriteEnv where
  /-- Whether `nostr.RelayConnect` on the URL returns `err == nil`. -/
  RelayConnect : String → Bool
  /-- Status that `relay.Publish` returns on the session of the URL. -/
  Publish : String → Status
  /-- Call `nip19.Decode(s)`: the error, or the decoded value. -/
  nip19Decode : String → Except String Decoded
  /-- Call `nostr.GetPublicKey(sk)`. -/
  GetPublicKey : String → Except String String
  /-- Call `nip19.EncodePublicKey(pub)`. -/
  EncodePublicKey : String → Except String String
  /-- Call `ioutil.ReadAll(os.Stdin)`, as a string. -/
  readStdin : Except String String
  /-- The value returned by `cli.ShowSubcommandHelp(cCtx)`. -/
  ShowSubcommandHelp : GoError

/-- Flags and positional arguments of a write command. -/
structure Flags where
  stdin : Bool
  sensitive : String
  id : String
  quote : Bool
  args : List String
  deriving DecidableEq, Repr

/-- Program counter of one goroutine started by `Config.Do`. -/
inductive PC where
  /-- About to call `nostr.RelayConnect` (line 136). -/
  | connect
  /-- In doReply: append the `e` tag and call `ev.Sign` (lines 276-281). -/
  | tagSign
  /-- In doRepost and doLike: evaluate `first.Load()` (lines 336, 397). -/
  | load
  /-- Call `relay.QuerySync` and append the `p` tags (lines 337-339, 398-400). -/
  | query
  /-- Execute `first.Store(false)` (lines 340, 401). -/
  | store
  /-- Call `ev.Sign(sk)` (lines 341, 402). -/
  | sign
  /-- Call `relay.Publish` and test the status. -/
  | publish
  /-- Execute `success.Add(1)`. -/
  | add
  /-- Call `relay.Close()` (line 144). -/
  | close
  /-- The goroutine has returned; `wg.Done()` has run. -/
  | done
  deriving DecidableEq, Repr

/-- One goroutine: the key `k` it was started with and where it stands. -/
structure Worker where
  url : String
  pc : PC
  deriving DecidableEq, Repr

/-- State shared by the goroutines of one fan-out. -/
structure Shared where
  /-- Variable `first` of type `atomic.Bool` (doRepost, doLike). -/
  first : Bool
  /-- Variable `success` of type `atomic.Int64`, as its 64-bit pattern. -/
  success : Nat
  /-- Number of calls of `ev.Sign` so far, including one made before the fan-out. -/
  signs : Nat
  /-- Calls that left the process so far. -/
  trace : List Effect
  deriving DecidableEq, Repr

/-- First statement of the action `f` of each command. -/
def entryPC : WriteCmd → PC
  | .post => .publish
  | .reply => .tagSign
  | .repost => .load
  | .like => .load
  | .delete => .publish

/-- Filter literal of doRepost and doLike:
`nostr.Filter{Kinds: []int{nostr.KindTextNote}, IDs: []string{id}}`. -/
def idFilter (id : String) : Filter :=
  { Kinds := [KindTextNote], IDs := [id], Authors := [], Search := "", Limit := 0 }

/-- One step of one goroutine (the closure of lines 133-145 around the
action `f` of command `cmd`). -/
def stepWorker (env : WriteEnv) (cmd : WriteCmd) (id : String) (w : Worker) (s : Shared) :
    Worker × Shared :=
  match w.pc with
  | .connect =>
    if env.RelayConnect w.url then
      ({ w with pc := entryPC cmd }, { s with trace := s.trace ++ [Effect.connect w.url] })
    else
      ({ w with pc := .done }, { s with trace := s.trace ++ [Effect.connect w.url] })
  | .tagSign => ({ w with pc := .publish }, { s with signs := s.signs + 1 })
  | .load =>
    if s.first then ({ w with pc := .query }, s) else ({ w with pc := .publish }, s)
  | .query =>
    ({ w with pc := .store },
      { s with trace := s.trace ++ [Effect.querySync w.url (idFilter id)] })
  | .store => ({ w with pc := .sign }, { s with first := false })
  | .sign => ({ w with pc := .publish }, { s with signs := s.signs + 1 })
  | .publish =>
    if env.Publish w.url ≠ Status.PublishStatusFailed then
      ({ w with pc := .add }, { s with trace := s.trace ++ [Effect.publish w.url] })
    else
      ({ w with pc := .close }, { s with trace := s.trace ++ [Effect.publish w.url] })
  | .add => ({ w with pc := .close }, { s with success := (s.success + 1) % 2 ^ 64 })
  | .close => ({ w with pc := .done }, { s with trace := s.trace ++ [Effect.close w.url] })
  | .done => (w, s)

/-- Loop of `Config.Do` (lines 122-146): one goroutine per entry that gets
past the guards, in iteration order. -/
def spawn (r : Relay) : GoMap Relay → List Worker
  | [] => []
  | (k, v) :: rest =>
    if skipped r v then spawn r rest
    else { url := k, pc := PC.connect } :: spawn r rest

/-- The scheduler lets goroutine number `i` make one step. -/
def stepAt (env : WriteEnv) (cmd : WriteCmd) (id : String) :
    Nat → List Worker → Shared → List Worker × Shared
  | _, [], s => ([], s)
  | 0, w :: ws, s => ((stepWorker env cmd id w s).1 :: ws, (stepWorker env cmd id w s).2)
  | i + 1, w :: ws, s =>
    (w :: (stepAt env cmd id i ws s).1, (stepAt env cmd id i ws s).2)

/-- Run a schedule. -/
def runSched (env : WriteEnv) (cmd : WriteCmd) (id : String) :
    List Nat → List Worker → Shared → List Worker × Shared
  | [], ws, s => (ws, s)
  | i :: sched, ws, s =>
    runSched env cmd id sched (stepAt env cmd id i ws s).1 (stepAt env cmd id i ws s).2

/-- The longest path of a goroutine: connect, load, query, store, sign,
publish, add, close. -/
def maxSteps : Nat := 8

/-- Schedule that lets goroutines `0 .. n-1`, one after the other, run for
`maxSteps` steps each. -/
def restSchedule : Nat → List Nat
  | 0 => []
  | n + 1 => restSchedule n ++ List.replicate maxSteps n

/-- `Config.Do`: start the goroutines, let them run as the schedule `sched`
says, and return from `wg.Wait()` when all of them are done; goroutines that
`sched` leaves unfinished are run to their end first.  Every complete
interleaving is obtained from some `sched`. -/
def Do (env : WriteEnv) (cmd : WriteCmd) (id : String) (r : Relay) (relays : GoMap Relay)
    (sched : List Nat) (s : Shared) : List Worker × Shared :=
  runSched env cmd id (sched ++ restSchedule (spawn r relays).length) (spawn r relays) s

/-- The error text of each command when no publish succeeded. -/
def failureMessage : WriteCmd → String
  | .post => "cannot post"
  | .reply => "cannot reply"
  | .repost => "cannot repost"
  | .like => "cannot like"
  | .delete => "cannot delete"

/-- Result of a write command. -/
structure WriteOut where
  /-- The error the command returns; meaningless when `panicked`. -/
  err : GoError
  /-- Whether the process died in a failed type assertion instead of returning. -/
  panicked : Bool
  /-- Number of calls of `ev.Sign`. -/
  signs : Nat
  effects : List Effect
  deriving DecidableEq, Repr

/-- Tail shared by the five commands (lines 216-229, 274-293, 331-354,
392-415, 450-463): declare `success` (and `first`, stored `true`), call
`cfg.Do` with the write request and turn `success.Load() == 0` into the
error.  `signed` is the number of `ev.Sign` calls made before the fan-out. -/
def fanOut (env : WriteEnv) (cmd : WriteCmd) (id : String) (cfg : Config)
    (sched : List Nat) (signed : Nat) : WriteOut :=
  let s := (Do env cmd id writeRequest cfg.Relays sched
    { first := true, success := 0, signs := signed, trace := [] }).2
  if s.success == 0 then
    { err := some (failureMessage cmd), panicked := false, signs := s.signs,
      effects := s.trace }
  else
    { err := none, panicked := false, signs := s.signs, effects := s.trace }

/-- Function `unicode.IsSpace`. -/
def isSpace (r : Char) : Bool :=
  if r.toNat ≤ 0xFF then
    r.toNat == 0x09 || r.toNat == 0x0A || r.toNat == 0x0B || r.toNat == 0x0C ||
      r.toNat == 0x0D || r.toNat == 0x20 || r.toNat == 0x85 || r.toNat == 0xA0
  else
    r.toNat == 0x1680 || (0x2000 ≤ r.toNat && r.toNat ≤ 0x200A) || r.toNat == 0x2028 ||
      r.toNat == 0x2029 || r.toNat == 0x202F || r.toNat == 0x205F || r.toNat == 0x3000

/-- Function `strings.TrimSpace`: drop leading and trailing white space. -/
def TrimSpace (s : String) : String :=
  String.mk ((s.data.dropWhile isSpace).reverse.dropWhile isSpace).reverse

/-- Lines 179-193 of doPost, and the same lines of the other four commands
(242-256, 302-315, 363-376, 424-437): decode the private key, assert that the
decoded value is a string (`s.(string)`, which panics on any other value) and
derive the public key. -/
def decodeKey (env : WriteEnv) (cfg : Config) : Except Abort (String × String) :=
  match env.nip19Decode cfg.PrivateKey with
  | .error e => .error (Abort.returns e)
  | .ok Decoded.pointer => .error Abort.panics
  | .ok (Decoded.str sk) =>
    match env.GetPublicKey sk with
    | .ok pub =>
      match env.EncodePublicKey pub with
      | .error e => .error (Abort.returns e)
      | .ok _ => .ok (sk, pub)
    | .error e => .error (Abort.returns e)

/-- Lines 258-260 of doReply and 317-321, 378-382, 439-443 of doRepost, doLike
and doDelete: `nip19.Decode(id)`; when it fails the flag value is used as it
is, when it succeeds the decoded value is asserted to be a string
(`tmp.(string)`, unguarded), which panics on a pointer record.  The result is
the id placed in the `e` tag. -/
def decodeId (env : WriteEnv) (id : String) : Except Abort String :=
  match env.nip19Decode id with
  | .error _ => .ok id
  | .ok (Decoded.str s) => .ok s
  | .ok Decoded.pointer => .error Abort.panics

/-- The content of a note: the bytes read from stdin with `--stdin`,
otherwise the arguments joined with a newline (lines 195-203, 264-272). -/
def readContent (env : WriteEnv) (fl : Flags) : Except String String :=
  if fl.stdin then env.readStdin else .ok ("\n".intercalate fl.args)

/-- The result of a command that stops before its fan-out. -/
def abortOut : Abort → WriteOut
  | .returns msg => { err := some msg, panicked := false, signs := 0, effects := [] }
  | .panics => { err := none, panicked := true, signs := 0, effects := [] }

/-- Everything a write command does before it declares `success`: `.error out`
when the command stops there with `out`, `.ok signed` when it goes on to the
fan-out having called `ev.Sign` `signed` times. -/
def prelude (env : WriteEnv) (cmd : WriteCmd) (fl : Flags) (cfg : Config) :
    Except WriteOut Nat :=
  match cmd with
  | .post =>
    if !fl.stdin && fl.args.length == 0 then
      .error { err := env.ShowSubcommandHelp, panicked := false, signs := 0, effects := [] }
    else
      match decodeKey env cfg with
      | .error a => .error (abortOut a)
      | .ok _ =>
        match readContent env fl with
        | .error e => .error (abortOut (Abort.returns e))
        | .ok content =>
          if TrimSpace content == "" then
            .error (abortOut (Abort.returns "content is empty"))
          else .ok 1
  | .reply =>
    if !fl.stdin && fl.args.length == 0 then
      .error { err := env.ShowSubcommandHelp, panicked := false, signs := 0, effects := [] }
    else
      match decodeKey env cfg with
      | .error a => .error (abortOut a)
      | .ok _ =>
        match decodeId env fl.id with
        | .error a => .error (abortOut a)
        | .ok _ =>
          match readContent env fl with
          | .error e => .error (abortOut (Abort.returns e))
          | .ok _ => .ok 0
  | .repost =>
    match decodeKey env cfg with
    | .error a => .error (abortOut a)
    | .ok _ =>
      match decodeId env fl.id with
      | .error a => .error (abortOut a)
      | .ok _ => .ok 0
  | .like =>
    match decodeKey env cfg with
    | .error a => .error (abortOut a)
    | .ok _ =>
      match decodeId env fl.id with
      | .error a => .error (abortOut a)
      | .ok _ => .ok 0
  | .delete =>
    match decodeKey env cfg with
    | .error a => .error (abortOut a)
    | .ok _ =>
      match decodeId env fl.id with
      | .error a => .error (abortOut a)
      | .ok _ => .ok 1

/-- A write command: its prelude, then the fan-out. -/
def runWrite (env : WriteEnv) (cmd : WriteCmd) (fl : Flags) (cfg : Config)
    (sched : List Nat) : WriteOut :=
  match prelude env cmd fl cfg with
  | .error out => out
  | .ok signed => fanOut env cmd fl.id cfg sched signed

/-- Command `doPost` (lines 170-230). -/
def doPost (env : WriteEnv) (fl : Flags) (cfg : Config) (sched : List Nat) : WriteOut :=
  runWrite env .post fl cfg sched

/-- Command `doReply` (lines 232-294). -/
def doReply (env : WriteEnv) (fl : Flags) (cfg : Config) (sched : List Nat) : WriteOut :=
  runWrite env .reply fl cfg sched

/-- Command `doRepost` (lines 296-355). -/
def doRepost (env : WriteEnv) (fl : Flags) (cfg : Config) (sched : List Nat) : WriteOut :=
  runWrite env .repost fl cfg sched

/-- Command `doLike` (lines 357-416). -/
def doLike (env : WriteEnv) (fl : Flags) (cfg : Config) (sched : List Nat) : WriteOut :=
  runWrite env .like fl cfg sched

/-- Command `doDelete` (lines 418-464). -/
def doDelete (env : WriteEnv) (fl : Flags) (cfg : Config) (sched : List Nat) : WriteOut :=
  runWrite env .delete fl cfg sched

/-- Number of registry entries that accept writes, connect, and whose publish
status is not `PublishStatusFailed`. -/
def successCount (env : WriteEnv) (relays : GoMap Relay) : Nat :=
  (relays.filter (fun e =>
    e.2.Write && env.RelayConnect e.1 &&
      decide (env.Publish e.1 ≠ Status.PublishStatusFailed))).length

/-- Number of `relay.QuerySync` calls in a trace. -/
def queryCount : List Effect → Nat
  | [] => 0
  | Effect.querySync _ _ :: rest => queryCount rest + 1
  | _ :: rest => queryCount rest

/-- Number of `nostr.RelayConnect` calls in a trace. -/
def connectCount : List Effect → Nat
  | [] => 0
  | Effect.connect _ :: rest => connectCount rest + 1
  | _ :: rest => connectCount rest

/-! ## The `Before` hook of the application (main.go 760-780) -/

/-- Split a list of characters at every occurrence of `sep`. -/
def splitOn (sep : Char) : List Char → List (List Char)
  | [] => [[]]
  | c :: cs =>
    if c = sep then [] :: splitOn sep cs
    else
      match splitOn sep cs with
      | [] => [[c]]
      | piece :: pieces => (c :: piece) :: pieces

/-- Function `strings.Split(s, sep)` for a separator of one character: the
substrings between the separators, one more than there are separators. -/
def Split (s : String) (sep : Char) : List String :=
  (splitOn sep s.data).map String.mk

/-- Entry that the hook stores for every piece of the `--relays` flag:
`Relay{Read: true, Write: true}`. -/
def flagRelay : Relay := { Read := true, Write := true, Search := false }

/-- The `Before` hook: `loadConfig` is the result of `loadConfig(profile)`, `V`
the flag `-V` and `relaysFlag` the value of `cCtx.String("relays")`, which is
the empty string when the flag is absent.  The result is the configuration
stored in `cCtx.App.Metadata["config"]`, or the error returned. -/
def Before (loadConfig : Except String Config) (V : Bool) (relaysFlag : String) :
    Except String Config :=
  match loadConfig with
  | .error err => .error err
  | .ok cfg =>
    let cfg1 : Config := { cfg with verbose := V }
    if (Split relaysFlag (Char.ofNat 44)).length > 0 then
      .ok { cfg1 with
        Relays := (Split relaysFlag (Char.ofNat 44)).foldl
          (fun m relay => GoMap.set m relay flagRelay) [] }
    else .ok cfg1

/-! ## Reference notions used in the statements -/

/-- The profile that the last event of `evs` with author `k` and well-formed
content carries, if there is such an event. -/
def lastProfile (Unmarshal : String → Option Profile) (evs : List NostrEvent)
    (k : String) : Option Profile :=
  ((evs.filter (fun ev => ev.PubKey = k)).filterMap (fun ev => Unmarshal ev.Content)).getLast?

/-- An environment in which every relay connects, every query is empty, every
content is malformed and saving succeeds. -/
def quietEnv (now nowSet : Int) : Env :=
  { RelayConnect := fun _ => true
    QuerySync := fun _ _ => []
    Unmarshal := fun _ => none
    save := fun _ => none
    now := now
    nowSet := nowSet }

/-- A profile with only a name. -/
def namedProfile (name : String) : Profile :=
  { Website := "", Nip05 := "", Picture := "", Lud16 := "", DisplayName := "",
    About := "", Name := name }

/-- A configuration with one cached follow, refreshed at instant `updated`. -/
def cachedConfig (updated : Int) : Config :=
  { Relays := [("wss://r", { Read := true, Write := true, Search := false })]
    Follows := [("alice", namedProfile "alice")]
    PrivateKey := "nsec1"
    Updated := updated
    verbose := false }

/-- The metadata events a rebuild receives: the result of the second query,
which is made only when the contact-list query returned something. -/
def metadataEvents (env : Env) (relay : String) : List NostrEvent :=
  if env.QuerySync relay contactFilter = [] then []
  else env.QuerySync relay
    (metadataFilter ((env.QuerySync relay contactFilter).map (fun ev => ev.PubKey)))

/-- An environment whose relay knows two contact lists and returns three
metadata events: two for bob (the first well formed, then a later well-formed
one) and a malformed one for carol. -/
def busyEnv (now nowSet : Int) : Env :=
  { RelayConnect := fun _ => true
    QuerySync := fun _ f =>
      if f.Kinds = [KindContactList] then
        [{ ID := "c1", PubKey := "bob", Content := "" },
         { ID := "c2", PubKey := "carol", Content := "" }]
      else
        [{ ID := "m1", PubKey := "bob", Content := "old" },
         { ID := "m2", PubKey := "carol", Content := "not json" },
         { ID := "m3", PubKey := "bob", Content := "new" }]
    Unmarshal := fun c =>
      if c = "old" then some (namedProfile "bob-old")
      else if c = "new" then some (namedProfile "bob-new")
      else none
    save := fun _ => none
    now := now
    nowSet := nowSet }

/-- Upper bound on the number of steps a goroutine at `pc` still makes. -/
def rank : PC → Nat
  | .connect => 8
  | .load => 7
  | .query => 6
  | .store => 5
  | .sign => 4
  | .tagSign => 4
  | .publish => 3
  | .add => 2
  | .close => 1
  | .done => 0

/-- The rank of goroutine number `i`; `0` when there is no such goroutine. -/
def rankAt (ws : List Worker) (i : Nat) : Nat :=
  match ws[i]? with
  | some w => rank w.pc
  | none => 0

/-- What a relay that has finished its work has added to `success`. -/
def doneCredit (env : WriteEnv) (url : String) : Nat :=
  if env.RelayConnect url && decide (env.Publish url ≠ Status.PublishStatusFailed) then 1 else 0

/-- What a goroutine has added to `success` so far. -/
def credit (env : WriteEnv) (w : Worker) : Nat :=
  match w.pc with
  | .close => doneCredit env w.url
  | .done => doneCredit env w.url
  | _ => 0

/-- States a goroutine can be in: past `connect` only if the connection
succeeded, at `add` only if the publish status was not failed. -/
def wellFormed (env : WriteEnv) (w : Worker) : Prop :=
  (w.pc ≠ PC.connect → w.pc ≠ PC.done → env.RelayConnect w.url = true) ∧
    (w.pc = PC.add → env.Publish w.url ≠ Status.PublishStatusFailed)

/-- An environment for the write commands in which the strings `nsec1` and
`note1` decode to a string, the string `nevent1` decodes to a pointer record
and nothing else decodes; stdin is empty, help returns `nil`, every publish
succeeds and exactly the relays listed in `up` connect. -/
def plainWriteEnv (up : List String) : WriteEnv :=
  { RelayConnect := fun url => up.contains url
    Publish := fun _ => Status.PublishStatusSucceeded
    nip19Decode := fun s =>
      if s = "nevent1" then .ok Decoded.pointer
      else if s = "nsec1" ∨ s = "note1" then .ok (Decoded.str "hex")
      else .error "incomplete prefix"
    GetPublicKey := fun _ => .ok "pub"
    EncodePublicKey := fun _ => .ok "npub"
    readStdin := .ok ""
    ShowSubcommandHelp := none }

/-- Flags of an invocation with the given positional arguments and `--id`. -/
def plainFlags (id : String) (args : List String) : Flags :=
  { stdin := false, sensitive := "", id := id, quote := false, args := args }

/-- A configuration whose registry is `relays`. -/
def configWith (relays : GoMap Relay) : Config :=
  { Relays := relays, Follows := [], PrivateKey := "nsec1", Updated := 0, verbose := false }

/-- Two relays that accept reads and writes. -/
def twoWriteRelays : GoMap Relay :=
  [("wss://a", { Read := true, Write := true, Search := false }),
   ("wss://b", { Read := true, Write := true, Search := false })]

/-! ## Theorems: capability filter -/

theorem skipped_writeRequest (v : Relay) : skipped writeRequest v = !v.Write := by
  cases v with
  | mk rd wr se => cases rd <;> cases wr <;> cases se <;> rfl

theorem skipped_searchRequest (v : Relay) :
    skipped searchRequest v = !(v.Search && v.Read) := by
  cases v with
  | mk rd wr se => cases rd <;> cases wr <;> cases se <;> rfl

theorem skipped_readRequest (v : Relay) : skipped readRequest v = !v.Read := by
  cases v with
  | mk rd wr se => cases rd <;> cases wr <;> cases se <;> rfl

/-- C1 (as stated, refuted): on the scenario registry the search request does
not select the entries with `Search = true`; it selects nothing, because the
search-only relay C fails the `!r.Write && !v.Read` guard. -/
theorem C1_search_counterexample :
    matching searchRequest scenarioRegistry ≠
        scenarioRegistry.filter (fun e => e.2.Search)
      ∧ GoMap.keys (matching searchRequest scenarioRegistry) = []
      ∧ GoMap.keys (scenarioRegistry.filter (fun e => e.2.Search)) = ["C"] := by
  decide

/-- C1 (amended): for every registry the filter of `Config.Do` and
`Config.FindRelay` keeps, for a write request, exactly the entries with
`Write = true`; for a search request, exactly the entries with `Search = true`
and `Read = true`; for a plain read request, exactly the entries with
`Read = true`.  On the scenario registry the write request matches A and B,
the search request matches nothing and the read request matches B only. -/
theorem C1_filter_selects (relays : GoMap Relay) :
    matching writeRequest relays = relays.filter (fun e => e.2.Write)
      ∧ matching searchRequest relays = relays.filter (fun e => e.2.Search && e.2.Read)
      ∧ matching readRequest relays = relays.filter (fun e => e.2.Read)
      ∧ GoMap.keys (matching writeRequest scenarioRegistry) = ["A", "B"]
      ∧ GoMap.keys (matching searchRequest scenarioRegistry) = []
      ∧ GoMap.keys (matching readRequest scenarioRegistry) = ["B"] := by
  refine ⟨?_, ?_, ?_, by decide, by decide, by decide⟩
  · unfold matching
    congr 1
    funext e
    simp [skipped_writeRequest]
  · unfold matching
    congr 1
    funext e
    simp [skipped_searchRequest]
  · unfold matching
    congr 1
    funext e
    simp [skipped_readRequest]

/-! ## Theorems: single-endpoint selection -/

theorem matching_cons_skipped {r : Relay} {k : String} {v : Relay} (rest : GoMap Relay)
    (h : skipped r v = true) : matching r ((k, v) :: rest) = matching r rest := by
  simp [matching, h]

theorem matching_cons_kept {r : Relay} {k : String} {v : Relay} (rest : GoMap Relay)
    (h : skipped r v = false) : matching r ((k, v) :: rest) = (k, v) :: matching r rest := by
  simp [matching, h]

theorem mem_matching {r : Relay} {relays : GoMap Relay} {e : String × Relay} :
    e ∈ matching r relays ↔ e ∈ relays ∧ skipped r e.2 = false := by
  simp [matching]

theorem FindRelay_result (RelayConnect : String → Bool) (r : Relay) (relays : GoMap Relay) :
    (FindRelay RelayConnect r relays).2 =
      (GoMap.keys (matching r relays)).find? RelayConnect := by
  induction relays with
  | nil => rfl
  | cons e rest ih =>
    obtain ⟨k, v⟩ := e
    cases hs : skipped r v with
    | true => simpa [FindRelay, hs, matching_cons_skipped rest hs] using ih
    | false =>
      cases hc : RelayConnect k with
      | true => simp [FindRelay, hs, hc, matching_cons_kept rest hs, GoMap.keys]
      | false =>
        simpa [FindRelay, hs, hc, matching_cons_kept rest hs, GoMap.keys] using ih

theorem FindRelay_attempts (RelayConnect : String → Bool) (r : Relay) (relays : GoMap Relay) :
    (FindRelay RelayConnect r relays).1 =
      (GoMap.keys (matching r relays)).takeWhile (fun k => !RelayConnect k) ++
        ((GoMap.keys (matching r relays)).find? RelayConnect).toList := by
  induction relays with
  | nil => rfl
  | cons e rest ih =>
    obtain ⟨k, v⟩ := e
    cases hs : skipped r v with
    | true => simpa [FindRelay, hs, matching_cons_skipped rest hs] using ih
    | false =>
      cases hc : RelayConnect k with
      | true => simp [FindRelay, hs, hc, matching_cons_kept rest hs, GoMap.keys]
      | false =>
        simpa [FindRelay, hs, hc, matching_cons_kept rest hs, GoMap.keys] using ih

theorem FindRelay_attempts_initial (RelayConnect : String → Bool) (r : Relay)
    (relays : GoMap Relay) :
    (FindRelay RelayConnect r relays).1 <+: GoMap.keys (matching r relays) := by
  induction relays with
  | nil => exact List.prefix_refl _
  | cons e rest ih =>
    obtain ⟨k, v⟩ := e
    cases hs : skipped r v with
    | true => simpa [FindRelay, hs, matching_cons_skipped rest hs] using ih
    | false =>
      cases hc : RelayConnect k with
      | true =>
        simp only [FindRelay, hs, hc, matching_cons_kept rest hs, GoMap.keys, List.map_cons]
        exact ⟨_, rfl⟩
      | false =>
        simp only [FindRelay, hs, hc, matching_cons_kept rest hs, GoMap.keys, List.map_cons]
        exact (List.prefix_cons_inj k).2 ih

theorem FindRelay_none_iff (RelayConnect : String → Bool) (r : Relay) (relays : GoMap Relay) :
    (FindRelay RelayConnect r relays).2 = none ↔
      ∀ e ∈ relays, skipped r e.2 = false → RelayConnect e.1 = false := by
  rw [FindRelay_result, List.find?_eq_none]
  constructor
  · intro h e he hs
    have := h e.1 (by
      simp only [GoMap.keys, List.mem_map]
      exact ⟨e, mem_matching.2 ⟨he, hs⟩, rfl⟩)
    simpa using this
  · intro h k hk
    simp only [GoMap.keys, List.mem_map] at hk
    obtain ⟨e, he, rfl⟩ := hk
    have := h e (mem_matching.1 he).1 (mem_matching.1 he).2
    simp [this]

/-- C7: for every registry (in any iteration order) and every connect oracle,
the URLs that `Config.FindRelay` hands to `RelayConnect` form a prefix of the
matching entries in iteration order, namely the matching entries that fail up
to the first one that connects, followed by that one; the returned session is
that first connecting matching entry; the result is `nil` exactly when every
matching entry fails to connect (in particular when none matches). -/
theorem C7_FindRelay_first_success (RelayConnect : String → Bool) (r : Relay)
    (relays : GoMap Relay) :
    (FindRelay RelayConnect r relays).1 <+: GoMap.keys (matching r relays)
      ∧ (FindRelay RelayConnect r relays).1 =
          (GoMap.keys (matching r relays)).takeWhile (fun k => !RelayConnect k) ++
            ((GoMap.keys (matching r relays)).find? RelayConnect).toList
      ∧ (FindRelay RelayConnect r relays).2 =
          (GoMap.keys (matching r relays)).find? RelayConnect
      ∧ ((FindRelay RelayConnect r relays).2 = none ↔
          ∀ e ∈ relays, skipped r e.2 = false → RelayConnect e.1 = false) :=
  ⟨FindRelay_attempts_initial _ _ _, FindRelay_attempts _ _ _, FindRelay_result _ _ _,
    FindRelay_none_iff _ _ _⟩

/-! ## Theorems: the map operations -/

theorem GoMap.get_set {β : Type} (m : GoMap β) (k k' : String) (v : β) :
    GoMap.get (GoMap.set m k v) k' = if k = k' then some v else GoMap.get m k' := by
  induction m with
  | nil => simp [GoMap.set, GoMap.get]
  | cons e rest ih =>
    obtain ⟨k₀, v₀⟩ := e
    by_cases h : k₀ = k
    · subst h
      by_cases h' : k₀ = k' <;> simp [GoMap.set, GoMap.get, h']
    · by_cases h' : k₀ = k'
      · subst h'
        simp [GoMap.set, GoMap.get, h, Ne.symm h]
      · simp [GoMap.set, GoMap.get, h, h', ih]

theorem GoMap.mem_keys_iff_get {β : Type} (m : GoMap β) (k : String) :
    k ∈ GoMap.keys m ↔ (GoMap.get m k).isSome = true := by
  induction m with
  | nil => simp [GoMap.keys, GoMap.get]
  | cons e rest ih =>
    obtain ⟨k₀, v₀⟩ := e
    by_cases h : k₀ = k
    · simp [GoMap.keys, GoMap.get, h]
    · have ih' : k ∈ List.map Prod.fst rest ↔ (GoMap.get rest k).isSome = true := ih
      simp [GoMap.keys, GoMap.get, h, Ne.symm h, ih']

theorem GoMap.mem_keys_set {β : Type} (m : GoMap β) (k k' : String) (v : β) :
    k' ∈ GoMap.keys (GoMap.set m k v) ↔ k' = k ∨ k' ∈ GoMap.keys m := by
  rw [GoMap.mem_keys_iff_get, GoMap.mem_keys_iff_get, GoMap.get_set]
  by_cases h : k = k'
  · simp [h]
  · simp [h, Ne.symm h]

theorem GoMap.nodup_keys_set {β : Type} (m : GoMap β) (k : String) (v : β)
    (h : (GoMap.keys m).Nodup) : (GoMap.keys (GoMap.set m k v)).Nodup := by
  induction m with
  | nil => simp [GoMap.set, GoMap.keys]
  | cons e rest ih =>
    obtain ⟨k₀, v₀⟩ := e
    have hcons : k₀ ∉ GoMap.keys rest ∧ (GoMap.keys rest).Nodup := by
      simpa [GoMap.keys] using h
    by_cases hk : k₀ = k
    · subst hk
      simpa [GoMap.set, GoMap.keys] using h
    · have hnot : k₀ ∉ GoMap.keys (GoMap.set rest k v) := by
        rw [GoMap.mem_keys_set]
        rintro (h1 | h1)
        · exact hk h1
        · exact hcons.1 h1
      have := ih hcons.2
      simp only [GoMap.set, hk, if_false, GoMap.keys, List.map_cons, List.nodup_cons]
      exact ⟨hnot, this⟩

/-! ## Theorems: follow cache -/

theorem followCache_fresh (env : Env) (relay : String) (cfg : Config)
    (hage : env.now - cfg.Updated ≤ 3 * Hour) (hne : cfg.Follows ≠ []) :
    followCache env relay cfg =
      { cfg := cfg, follows := GoMap.keys cfg.Follows, effects := [], err := none } := by
  have h1 : ¬ cfg.Updated + 3 * Hour < env.now := by omega
  have h2 : cfg.Follows.length ≠ 0 := by
    simpa [List.length_eq_zero] using hne
  simp [followCache, h1, h2]

theorem followCache_stale (env : Env) (relay : String) (cfg : Config)
    (hstale : cfg.Updated + 3 * Hour < env.now ∨ cfg.Follows = []) :
    followCache env relay cfg =
      (let follows := (env.QuerySync relay contactFilter).map (fun ev => ev.PubKey)
       let fetched : GoMap Profile × List Effect :=
         if follows.length > 0 then
           (storeProfiles env.Unmarshal (env.QuerySync relay (metadataFilter follows)) [],
             [Effect.querySync relay (metadataFilter follows)])
         else ([], [])
       let cfg1 : Config := { cfg with Follows := fetched.1, Updated := env.nowSet }
       { cfg := cfg1
         follows := follows
         effects := Effect.querySync relay contactFilter :: fetched.2 ++ [Effect.save cfg1]
         err := env.save cfg1 }) := by
  have h : (decide (cfg.Updated + 3 * Hour < env.now) || cfg.Follows.length == 0) = true := by
    rcases hstale with h | h
    · simp [h]
    · simp [h]
  simp only [followCache, h, if_true]

/-- The profiles fetched by a rebuild: the metadata query is made only when
the contact-list query returned at least one event. -/
theorem followCache_stale_follows (env : Env) (relay : String) (cfg : Config)
    (hstale : cfg.Updated + 3 * Hour < env.now ∨ cfg.Follows = []) :
    (followCache env relay cfg).cfg.Follows =
      storeProfiles env.Unmarshal
        (if env.QuerySync relay contactFilter = [] then []
         else env.QuerySync relay
           (metadataFilter ((env.QuerySync relay contactFilter).map (fun ev => ev.PubKey)))) [] := by
  rw [followCache_stale env relay cfg hstale]
  by_cases hc : env.QuerySync relay contactFilter = []
  · simp [hc, storeProfiles]
  · have : 0 < (env.QuerySync relay contactFilter).length := List.length_pos.2 hc
    simp [hc, this]

theorem followCache_stale_last (env : Env) (relay : String) (cfg : Config)
    (hstale : cfg.Updated + 3 * Hour < env.now ∨ cfg.Follows = []) :
    (followCache env relay cfg).effects.getLast? =
      some (Effect.save (followCache env relay cfg).cfg) := by
  rw [followCache_stale env relay cfg hstale]
  simp only []
  rw [List.getLast?_append]
  rfl

theorem lastProfile_cons (Unmarshal : String → Option Profile) (ev : NostrEvent)
    (evs : List NostrEvent) (k : String) :
    lastProfile Unmarshal (ev :: evs) k =
      (lastProfile Unmarshal evs k).or
        (if ev.PubKey = k then Unmarshal ev.Content else none) := by
  have h : ev :: evs = [ev] ++ evs := rfl
  unfold lastProfile
  rw [h, List.filter_append, List.filterMap_append, List.getLast?_append]
  congr 1
  by_cases hk : ev.PubKey = k
  · cases hu : Unmarshal ev.Content <;> simp [hk, hu]
  · simp [hk]

theorem get_storeProfiles (Unmarshal : String → Option Profile) (evs : List NostrEvent)
    (m : GoMap Profile) (k : String) :
    GoMap.get (storeProfiles Unmarshal evs m) k =
      (lastProfile Unmarshal evs k).or (GoMap.get m k) := by
  induction evs generalizing m with
  | nil => simp [storeProfiles, lastProfile]
  | cons ev evs ih =>
    rw [lastProfile_cons]
    cases hu : Unmarshal ev.Content with
    | none =>
      simp only [storeProfiles, hu, ih]
      cases lastProfile Unmarshal evs k <;> simp
    | some p =>
      simp only [storeProfiles, hu, ih, GoMap.get_set]
      by_cases hk : ev.PubKey = k
      · cases lastProfile Unmarshal evs k <;> simp [hk]
      · cases lastProfile Unmarshal evs k <;> simp [hk]

theorem nodup_keys_storeProfiles (Unmarshal : String → Option Profile)
    (evs : List NostrEvent) (m : GoMap Profile) (h : (GoMap.keys m).Nodup) :
    (GoMap.keys (storeProfiles Unmarshal evs m)).Nodup := by
  induction evs generalizing m with
  | nil => simpa [storeProfiles] using h
  | cons ev evs ih =>
    cases hu : Unmarshal ev.Content with
    | none => simpa [storeProfiles, hu] using ih m h
    | some p =>
      simpa [storeProfiles, hu] using ih _ (GoMap.nodup_keys_set m ev.PubKey p h)

theorem lastProfile_isSome (Unmarshal : String → Option Profile) (evs : List NostrEvent)
    (k : String) :
    (lastProfile Unmarshal evs k).isSome = true ↔
      ∃ ev ∈ evs, ev.PubKey = k ∧ (Unmarshal ev.Content).isSome = true := by
  induction evs with
  | nil => simp [lastProfile]
  | cons ev evs ih =>
    rw [lastProfile_cons]
    have hor : ∀ a b : Option Profile, (a.or b).isSome = true ↔
        a.isSome = true ∨ b.isSome = true := by
      intro a b
      cases a <;> cases b <;> simp
    rw [hor, ih]
    by_cases hk : ev.PubKey = k
    · simp only [hk, if_true, List.mem_cons, exists_eq_or_imp, true_and]
      exact or_comm
    · simp [hk]

/-- C4 (as stated, refuted): with `now - cfg.Updated` exactly three hours and a
non-empty cache the block does not rebuild: it issues no query, does not save
and leaves the configuration, `Updated` included, as it was. -/
theorem C4_exactly_three_hours_counterexample :
    (quietEnv (3 * Hour) (3 * Hour + 1)).now - (cachedConfig 0).Updated = 3 * Hour
      ∧ ¬ ((quietEnv (3 * Hour) (3 * Hour + 1)).now - (cachedConfig 0).Updated < 3 * Hour)
      ∧ (cachedConfig 0).Follows ≠ []
      ∧ (followCache (quietEnv (3 * Hour) (3 * Hour + 1)) "wss://r" (cachedConfig 0)).effects = []
      ∧ (followCache (quietEnv (3 * Hour) (3 * Hour + 1)) "wss://r" (cachedConfig 0)).cfg
          = cachedConfig 0 := by
  refine ⟨by decide, by decide, by decide, ?_, ?_⟩
  · rw [followCache_fresh _ _ _ (by decide) (by decide)]
  · rw [followCache_fresh _ _ _ (by decide) (by decide)]

/-- C4 (amended): in doTimeline and doSearch the follow cache is treated as
fresh exactly when `now - cfg.Updated <= 3h` and `cfg.Follows` is non-empty:
then nothing is queried or saved and the configuration is unchanged.  In every
other case, that is when `now - cfg.Updated > 3h` or the cache is empty, the
cache is rebuilt from the empty map: the contact-list query is the first call,
`cfg.Follows` holds only what the stored metadata events give,
`cfg.Updated` is the new clock reading and the last call saves that
configuration. -/
theorem C4_fresh_iff_within_three_hours (env : Env) (relay : String) (cfg : Config) :
    if env.now - cfg.Updated ≤ 3 * Hour ∧ cfg.Follows ≠ [] then
      (followCache env relay cfg).effects = []
        ∧ (followCache env relay cfg).cfg = cfg
    else
      (followCache env relay cfg).effects.head? = some (Effect.querySync relay contactFilter)
        ∧ (followCache env relay cfg).cfg.Follows =
            storeProfiles env.Unmarshal (metadataEvents env relay) []
        ∧ (followCache env relay cfg).cfg.Updated = env.nowSet
        ∧ (followCache env relay cfg).effects.getLast? =
            some (Effect.save (followCache env relay cfg).cfg) := by
  split_ifs with h
  · rw [followCache_fresh env relay cfg h.1 h.2]
    exact ⟨rfl, rfl⟩
  · have hstale : cfg.Updated + 3 * Hour < env.now ∨ cfg.Follows = [] := by
      by_cases hne : cfg.Follows = []
      · exact Or.inr hne
      · left
        by_contra hlt
        exact h ⟨by omega, hne⟩
    refine ⟨?_, followCache_stale_follows env relay cfg hstale, ?_, ?_⟩
    · rw [followCache_stale env relay cfg hstale]
      rfl
    · rw [followCache_stale env relay cfg hstale]
    · exact followCache_stale_last env relay cfg hstale

/-- C5: if `cfg.Updated = now - 4h` the follow-cache block of doTimeline and
doSearch rebuilds: the contact-list query is issued first, `cfg.Follows` is
replaced by what the metadata events give starting from the empty map,
`cfg.Updated` becomes the new clock reading and save is called last with that
configuration.  If `cfg.Updated = now - 1h` and `cfg.Follows` is non-empty the
block makes no call at all (no QuerySync, no save), leaves the configuration
unchanged, returns no error, and the follow list used afterwards is the list
of keys of `cfg.Follows`. -/
theorem C5_four_hours_rebuilds_one_hour_reuses (env : Env) (relay : String) (cfg : Config) :
    (cfg.Updated = env.now - 4 * Hour →
        (followCache env relay cfg).effects.head? =
            some (Effect.querySync relay contactFilter)
          ∧ (followCache env relay cfg).cfg.Follows =
              storeProfiles env.Unmarshal (metadataEvents env relay) []
          ∧ (followCache env relay cfg).cfg.Updated = env.nowSet
          ∧ (followCache env relay cfg).effects.getLast? =
              some (Effect.save (followCache env relay cfg).cfg))
      ∧ (cfg.Updated = env.now - 1 * Hour → cfg.Follows ≠ [] →
          (followCache env relay cfg).effects = []
            ∧ (followCache env relay cfg).cfg = cfg
            ∧ (followCache env relay cfg).err = none
            ∧ (followCache env relay cfg).follows = GoMap.keys cfg.Follows) := by
  constructor
  · intro h4
    have hstale : cfg.Updated + 3 * Hour < env.now ∨ cfg.Follows = [] := by
      left
      have : (0 : Int) < Hour := by decide
      omega
    refine ⟨?_, followCache_stale_follows env relay cfg hstale, ?_, ?_⟩
    · rw [followCache_stale env relay cfg hstale]
      rfl
    · rw [followCache_stale env relay cfg hstale]
    · exact followCache_stale_last env relay cfg hstale
  · intro h1 hne
    have : (0 : Int) < Hour := by decide
    rw [followCache_fresh env relay cfg (by omega) hne]
    exact ⟨rfl, rfl, rfl, rfl⟩

/-- C5, at concrete inputs: a cache refreshed four hours ago is rebuilt from
the relay of `busyEnv`, a cache refreshed one hour ago is reused. -/
theorem C5_witness :
    ((cachedConfig 0).Updated = (busyEnv (4 * Hour) (4 * Hour + 7)).now - 4 * Hour
        ∧ (followCache (busyEnv (4 * Hour) (4 * Hour + 7)) "wss://r" (cachedConfig 0)).cfg.Updated
            = 4 * Hour + 7)
      ∧ ((cachedConfig 0).Updated = (busyEnv (1 * Hour) (1 * Hour + 7)).now - 1 * Hour
        ∧ (cachedConfig 0).Follows ≠ []
        ∧ (followCache (busyEnv (1 * Hour) (1 * Hour + 7)) "wss://r" (cachedConfig 0)).follows
            = ["alice"]) :=
  ⟨⟨by decide,
    ((C5_four_hours_rebuilds_one_hour_reuses (busyEnv (4 * Hour) (4 * Hour + 7)) "wss://r"
      (cachedConfig 0)).1 (by decide)).2.2.1⟩,
   ⟨by decide, by decide,
    ((C5_four_hours_rebuilds_one_hour_reuses (busyEnv (1 * Hour) (1 * Hour + 7)) "wss://r"
      (cachedConfig 0)).2 (by decide) (by decide)).2.2.2⟩⟩

/-- C9: when the follow cache is stale, the rebuilt `cfg.Follows` is a function
of the metadata events alone: looking up a key gives the profile of the last
returned event with that `PubKey` whose content parses; a key is present
exactly when some returned event with that `PubKey` parses; keys are not
repeated; any other stale configuration, whatever its old cache, ends with the
same `cfg.Follows`; the only error the block can return is that of save, so a
malformed content is never an error; and if the contact-list query returns no
events the cache becomes empty while `cfg.Updated` is still set to the clock
reading. -/
theorem C9_rebuild_from_scratch (env : Env) (relay : String) (cfg : Config)
    (hstale : cfg.Updated + 3 * Hour < env.now ∨ cfg.Follows = []) :
    (∀ k, GoMap.get (followCache env relay cfg).cfg.Follows k =
        lastProfile env.Unmarshal (metadataEvents env relay) k)
      ∧ (∀ k, k ∈ GoMap.keys (followCache env relay cfg).cfg.Follows ↔
          ∃ ev ∈ metadataEvents env relay,
            ev.PubKey = k ∧ (env.Unmarshal ev.Content).isSome = true)
      ∧ (GoMap.keys (followCache env relay cfg).cfg.Follows).Nodup
      ∧ (∀ cfg' : Config, (cfg'.Updated + 3 * Hour < env.now ∨ cfg'.Follows = []) →
          (followCache env relay cfg').cfg.Follows = (followCache env relay cfg).cfg.Follows)
      ∧ (followCache env relay cfg).err = env.save (followCache env relay cfg).cfg
      ∧ (followCache env relay cfg).cfg.Updated = env.nowSet
      ∧ (env.QuerySync relay contactFilter = [] →
          (followCache env relay cfg).cfg.Follows = []) := by
  have hF := followCache_stale_follows env relay cfg hstale
  have hF' : (followCache env relay cfg).cfg.Follows =
      storeProfiles env.Unmarshal (metadataEvents env relay) [] := hF
  refine ⟨?_, ?_, ?_, ?_, ?_, ?_, ?_⟩
  · intro k
    rw [hF', get_storeProfiles]
    cases lastProfile env.Unmarshal (metadataEvents env relay) k <;> simp [GoMap.get]
  · intro k
    rw [GoMap.mem_keys_iff_get, hF', get_storeProfiles, ← lastProfile_isSome]
    cases lastProfile env.Unmarshal (metadataEvents env relay) k <;> simp [GoMap.get]
  · rw [hF']
    exact nodup_keys_storeProfiles _ _ _ (by simp [GoMap.keys])
  · intro cfg' hstale'
    rw [hF, followCache_stale_follows env relay cfg' hstale']
  · rw [followCache_stale env relay cfg hstale]
  · rw [followCache_stale env relay cfg hstale]
  · intro hempty
    rw [hF', metadataEvents, if_pos hempty]
    rfl

/-- C9, at a concrete input: the stale cache holding alice is rebuilt from the
relay of `busyEnv`; bob is present with his last well-formed profile, carol
(malformed content) and alice (not re-fetched) are absent. -/
theorem C9_witness :
    ((cachedConfig 0).Updated + 3 * Hour < (busyEnv (4 * Hour) (4 * Hour)).now
        ∨ (cachedConfig 0).Follows = [])
      ∧ GoMap.get (followCache (busyEnv (4 * Hour) (4 * Hour)) "wss://r"
          (cachedConfig 0)).cfg.Follows "bob" = some (namedProfile "bob-new")
      ∧ GoMap.get (followCache (busyEnv (4 * Hour) (4 * Hour)) "wss://r"
          (cachedConfig 0)).cfg.Follows "carol" = none
      ∧ GoMap.get (followCache (busyEnv (4 * Hour) (4 * Hour)) "wss://r"
          (cachedConfig 0)).cfg.Follows "alice" = none := by
  have hst : (cachedConfig 0).Updated + 3 * Hour < (busyEnv (4 * Hour) (4 * Hour)).now
      ∨ (cachedConfig 0).Follows = [] := Or.inl (by decide)
  have h := (C9_rebuild_from_scratch (busyEnv (4 * Hour) (4 * Hour)) "wss://r"
    (cachedConfig 0) hst).1
  refine ⟨hst, ?_, ?_, ?_⟩
  · rw [h]; decide
  · rw [h]; decide
  · rw [h]; decide

/-! ## Theorems: fan-out -/

theorem stepWorker_url (env : WriteEnv) (cmd : WriteCmd) (id : String) (w : Worker)
    (s : Shared) : (stepWorker env cmd id w s).1.url = w.url := by
  obtain ⟨url, pc⟩ := w
  cases pc <;> simp only [stepWorker] <;> (try split_ifs) <;> rfl

theorem stepWorker_rank (env : WriteEnv) (cmd : WriteCmd) (id : String) (w : Worker)
    (s : Shared) : rank (stepWorker env cmd id w s).1.pc ≤ rank w.pc - 1 := by
  obtain ⟨url, pc⟩ := w
  cases pc <;> cases cmd <;> simp only [stepWorker, entryPC] <;> (try split_ifs) <;> simp [rank]

theorem stepWorker_credit (env : WriteEnv) (cmd : WriteCmd) (id : String) (w : Worker)
    (s : Shared) (c : Nat) (hw : wellFormed env w)
    (hs : s.success = (c + credit env w) % 2 ^ 64) :
    wellFormed env (stepWorker env cmd id w s).1 ∧
      (stepWorker env cmd id w s).2.success =
        (c + credit env (stepWorker env cmd id w s).1) % 2 ^ 64 := by
  obtain ⟨url, pc⟩ := w
  obtain ⟨hw1, hw2⟩ := hw
  cases pc with
  | connect =>
    by_cases hc : env.RelayConnect url = true
    · cases cmd <;>
        simp_all [stepWorker, entryPC, wellFormed, credit]
    · simp_all [stepWorker, wellFormed, credit, doneCredit]
  | tagSign => simp_all [stepWorker, wellFormed, credit]
  | load =>
    by_cases hf : s.first = true <;> simp_all [stepWorker, wellFormed, credit]
  | query => simp_all [stepWorker, wellFormed, credit]
  | store => simp_all [stepWorker, wellFormed, credit]
  | sign => simp_all [stepWorker, wellFormed, credit]
  | publish =>
    by_cases hp : env.Publish url = Status.PublishStatusFailed
    · simp_all [stepWorker, wellFormed, credit, doneCredit]
    · simp_all [stepWorker, wellFormed, credit, doneCredit]
  | add =>
    have h1 : env.RelayConnect url = true := hw1 (by simp) (by simp)
    have h2 : env.Publish url ≠ Status.PublishStatusFailed := hw2 rfl
    simp only [credit, Nat.add_zero] at hs
    simp only [stepWorker, wellFormed, credit, doneCredit, h1, hs]
    refine ⟨⟨fun _ _ => trivial, fun h => by cases h⟩, ?_⟩
    simp [h2]
  | close =>
    simp_all [stepWorker, wellFormed, credit]
  | done => simp_all [stepWorker, wellFormed, credit]

theorem stepAt_urls (env : WriteEnv) (cmd : WriteCmd) (id : String) (i : Nat)
    (ws : List Worker) (s : Shared) :
    (stepAt env cmd id i ws s).1.map (fun w => w.url) = ws.map (fun w => w.url) := by
  induction ws generalizing i with
  | nil => cases i <;> rfl
  | cons w ws ih =>
    cases i with
    | zero => simp [stepAt, stepWorker_url]
    | succ i => simp [stepAt, ih]

theorem stepAt_rankAt (env : WriteEnv) (cmd : WriteCmd) (id : String) (j : Nat)
    (ws : List Worker) (s : Shared) (i : Nat) :
    rankAt (stepAt env cmd id j ws s).1 i ≤ rankAt ws i - (if i = j then 1 else 0) := by
  induction ws generalizing i j with
  | nil => cases j <;> simp [stepAt, rankAt]
  | cons w ws ih =>
    cases j with
    | zero =>
      cases i with
      | zero => simpa [stepAt, rankAt] using stepWorker_rank env cmd id w s
      | succ i => simp [stepAt, rankAt]
    | succ j =>
      cases i with
      | zero => simp [stepAt, rankAt]
      | succ i =>
        have := ih j i
        simpa [stepAt, rankAt] using this

theorem stepAt_inv (env : WriteEnv) (cmd : WriteCmd) (id : String) (i : Nat)
    (ws : List Worker) (s : Shared) (c : Nat) (hw : ∀ w ∈ ws, wellFormed env w)
    (hs : s.success = (c + (ws.map (credit env)).sum) % 2 ^ 64) :
    (∀ w ∈ (stepAt env cmd id i ws s).1, wellFormed env w) ∧
      (stepAt env cmd id i ws s).2.success =
        (c + ((stepAt env cmd id i ws s).1.map (credit env)).sum) % 2 ^ 64 := by
  induction ws generalizing i c with
  | nil => cases i <;> simpa [stepAt] using hs
  | cons w ws ih =>
    have hw0 : wellFormed env w := hw w (List.mem_cons_self _ _)
    have hwr : ∀ x ∈ ws, wellFormed env x := fun x hx => hw x (List.mem_cons_of_mem _ hx)
    cases i with
    | zero =>
      have hs' : s.success = ((c + (ws.map (credit env)).sum) + credit env w) % 2 ^ 64 := by
        rw [hs]
        simp only [List.map_cons, List.sum_cons]
        congr 1
        omega
      obtain ⟨h1, h2⟩ := stepWorker_credit env cmd id w s _ hw0 hs'
      refine ⟨?_, ?_⟩
      · intro x hx
        simp only [stepAt, List.mem_cons] at hx
        rcases hx with rfl | hx
        · exact h1
        · exact hwr x hx
      · simp only [stepAt, List.map_cons, List.sum_cons]
        rw [h2]
        congr 1
        omega
    | succ i =>
      have hs' : s.success = ((c + credit env w) + (ws.map (credit env)).sum) % 2 ^ 64 := by
        rw [hs]
        simp only [List.map_cons, List.sum_cons]
        congr 1
        omega
      obtain ⟨h1, h2⟩ := ih i (c + credit env w) hwr hs'
      refine ⟨?_, ?_⟩
      · intro x hx
        simp only [stepAt, List.mem_cons] at hx
        rcases hx with rfl | hx
        · exact hw0
        · exact h1 x hx
      · simp only [stepAt, List.map_cons, List.sum_cons]
        rw [h2]
        congr 1
        omega

theorem runSched_urls (env : WriteEnv) (cmd : WriteCmd) (id : String) (sched : List Nat)
    (ws : List Worker) (s : Shared) :
    (runSched env cmd id sched ws s).1.map (fun w => w.url) = ws.map (fun w => w.url) := by
  induction sched generalizing ws s with
  | nil => rfl
  | cons i sched ih => simp [runSched, ih, stepAt_urls]

theorem runSched_rankAt (env : WriteEnv) (cmd : WriteCmd) (id : String) (sched : List Nat)
    (ws : List Worker) (s : Shared) (i : Nat) :
    rankAt (runSched env cmd id sched ws s).1 i ≤ rankAt ws i - sched.count i := by
  induction sched generalizing ws s with
  | nil => simp [runSched]
  | cons j sched ih =>
    have h1 := ih (stepAt env cmd id j ws s).1 (stepAt env cmd id j ws s).2
    have h2 := stepAt_rankAt env cmd id j ws s i
    simp only [runSched, List.count_cons]
    by_cases hij : i = j
    · subst hij
      simp only [if_true, beq_self_eq_true] at h2 ⊢
      omega
    · have hji : (j == i) = false := by
        simpa using (Ne.symm hij)
      simp only [hij, if_false, hji] at h2 ⊢
      simp only [Bool.false_eq_true, if_false]
      omega

theorem runSched_inv (env : WriteEnv) (cmd : WriteCmd) (id : String) (sched : List Nat)
    (ws : List Worker) (s : Shared) (hw : ∀ w ∈ ws, wellFormed env w)
    (hs : s.success = ((ws.map (credit env)).sum) % 2 ^ 64) :
    (runSched env cmd id sched ws s).2.success =
      (((runSched env cmd id sched ws s).1.map (credit env)).sum) % 2 ^ 64 := by
  induction sched generalizing ws s with
  | nil => simpa [runSched] using hs
  | cons j sched ih =>
    obtain ⟨h1, h2⟩ := stepAt_inv env cmd id j ws s 0 hw (by simpa using hs)
    simp only [runSched]
    exact ih _ _ h1 (by simpa using h2)

theorem count_restSchedule (n i : Nat) (h : i < n) :
    (restSchedule n).count i = maxSteps := by
  induction n with
  | zero => omega
  | succ n ih =>
    simp only [restSchedule, List.count_append, List.count_replicate]
    by_cases hi : i = n
    · subst hi
      have : (restSchedule i).count i = 0 := by
        clear ih h
        suffices H : ∀ m, m ≤ i → (restSchedule m).count i = 0 from H i (le_refl _)
        intro m
        induction m with
        | zero => intro _; rfl
        | succ m ihm =>
          intro hm
          simp only [restSchedule, List.count_append, List.count_replicate]
          have hne : (m == i) = false := by
            simp
            omega
          simp [hne, ihm (by omega)]
      simp [this]
    · have hne : (n == i) = false := by
        simpa using (Ne.symm hi)
      simp [hne, ih (by omega)]

theorem rank_le_maxSteps (pc : PC) : rank pc ≤ maxSteps := by
  cases pc <;> simp [rank, maxSteps]

theorem rank_eq_zero {pc : PC} (h : rank pc = 0) : pc = PC.done := by
  cases pc <;> simp [rank] at h ⊢

theorem rankAt_le_maxSteps (ws : List Worker) (i : Nat) : rankAt ws i ≤ maxSteps := by
  unfold rankAt
  cases ws[i]? with
  | none => exact Nat.zero_le _
  | some w => exact rank_le_maxSteps w.pc

/-- Fairness is enough: after any schedule in which every goroutine occurs at
least `maxSteps` times, every goroutine is done. -/
theorem runSched_all_done (env : WriteEnv) (cmd : WriteCmd) (id : String) (sched : List Nat)
    (ws : List Worker) (s : Shared)
    (hfair : ∀ i, i < ws.length → maxSteps ≤ sched.count i) :
    ∀ w ∈ (runSched env cmd id sched ws s).1, w.pc = PC.done := by
  intro w hw
  obtain ⟨i, hi, hget⟩ := List.getElem_of_mem hw
  have hlen : (runSched env cmd id sched ws s).1.length = ws.length := by
    have := congrArg List.length (runSched_urls env cmd id sched ws s)
    simpa using this
  have h1 := runSched_rankAt env cmd id sched ws s i
  have h2 := rankAt_le_maxSteps ws i
  have h3 := hfair i (by omega)
  have h4 : rankAt (runSched env cmd id sched ws s).1 i = rank w.pc := by
    simp [rankAt, List.getElem?_eq_getElem hi, hget]
  exact rank_eq_zero (by omega)

theorem Do_all_done (env : WriteEnv) (cmd : WriteCmd) (id : String) (r : Relay)
    (relays : GoMap Relay) (sched : List Nat) (s : Shared) :
    ∀ w ∈ (Do env cmd id r relays sched s).1, w.pc = PC.done := by
  apply runSched_all_done
  intro i hi
  rw [List.count_append, count_restSchedule _ _ hi]
  exact Nat.le_add_left _ _

theorem Do_urls (env : WriteEnv) (cmd : WriteCmd) (id : String) (r : Relay)
    (relays : GoMap Relay) (sched : List Nat) (s : Shared) :
    (Do env cmd id r relays sched s).1.map (fun w => w.url) =
      (spawn r relays).map (fun w => w.url) :=
  runSched_urls _ _ _ _ _ _

theorem spawn_urls (r : Relay) (relays : GoMap Relay) :
    (spawn r relays).map (fun w => w.url) = GoMap.keys (matching r relays) := by
  induction relays with
  | nil => rfl
  | cons e rest ih =>
    obtain ⟨k, v⟩ := e
    cases hs : skipped r v with
    | true => simpa [spawn, hs, matching_cons_skipped rest hs] using ih
    | false =>
      simp only [spawn, hs, matching_cons_kept rest hs, GoMap.keys, List.map_cons]
      exact congrArg (List.cons k) ih

theorem spawn_wellFormed (env : WriteEnv) (r : Relay) (relays : GoMap Relay) :
    ∀ w ∈ spawn r relays, wellFormed env w ∧ credit env w = 0 := by
  induction relays with
  | nil => simp [spawn]
  | cons e rest ih =>
    obtain ⟨k, v⟩ := e
    cases hs : skipped r v with
    | true => simpa [spawn, hs] using ih
    | false =>
      intro w hw
      have hsp : spawn r ((k, v) :: rest) = { url := k, pc := PC.connect } :: spawn r rest := by
        simp [spawn, hs]
      rw [hsp] at hw
      rcases List.mem_cons.1 hw with h | h
      · subst h
        simp [wellFormed, credit]
      · exact ih w h

theorem sum_credit_done (env : WriteEnv) (ws : List Worker)
    (h : ∀ w ∈ ws, w.pc = PC.done) :
    (ws.map (credit env)).sum = ((ws.map (fun w => w.url)).map (doneCredit env)).sum := by
  induction ws with
  | nil => rfl
  | cons w ws ih =>
    have h0 : w.pc = PC.done := h w (List.mem_cons_self _ _)
    have ih' := ih (fun x hx => h x (List.mem_cons_of_mem _ hx))
    simp only [List.map_cons, List.sum_cons, ih']
    simp [credit, h0]

theorem sum_doneCredit_matching (env : WriteEnv) (relays : GoMap Relay) :
    ((GoMap.keys (matching writeRequest relays)).map (doneCredit env)).sum =
      successCount env relays := by
  induction relays with
  | nil => rfl
  | cons e rest ih =>
    obtain ⟨k, v⟩ := e
    have ih' : (List.map (doneCredit env) (GoMap.keys (matching writeRequest rest))).sum =
        (List.filter (fun e => e.2.Write && env.RelayConnect e.1 &&
          decide (env.Publish e.1 ≠ Status.PublishStatusFailed)) rest).length := ih
    cases hw : v.Write with
    | false =>
      have hs : skipped writeRequest v = true := by simp [skipped_writeRequest, hw]
      rw [matching_cons_skipped rest hs, ih]
      simp [successCount, hw]
    | true =>
      have hs : skipped writeRequest v = false := by simp [skipped_writeRequest, hw]
      rw [matching_cons_kept rest hs]
      simp only [GoMap.keys, List.map_cons, List.sum_cons, successCount]
      by_cases hc : (env.RelayConnect k &&
          decide (env.Publish k ≠ Status.PublishStatusFailed)) = true
      · have : (v.Write && env.RelayConnect k &&
            decide (env.Publish k ≠ Status.PublishStatusFailed)) = true := by
          simp only [hw, Bool.true_and]
          exact hc
        have ih2 := ih'
        simp only [GoMap.keys] at ih2
        simp only [List.filter_cons, this, if_true, doneCredit, hc, List.length_cons]
        omega
      · have : ¬ (v.Write && env.RelayConnect k &&
            decide (env.Publish k ≠ Status.PublishStatusFailed)) = true := by
          simp only [hw, Bool.true_and]
          exact hc
        have ih2 := ih'
        simp only [GoMap.keys] at ih2
        have hcf : (env.RelayConnect k &&
            decide (env.Publish k ≠ Status.PublishStatusFailed)) = false := by
          simpa using hc
        have thisf : (v.Write && env.RelayConnect k &&
            decide (env.Publish k ≠ Status.PublishStatusFailed)) = false := by
          simpa using this
        simp only [List.filter_cons, thisf, doneCredit, hcf, Bool.false_eq_true, if_false]
        omega

/-- When `cfg.Do` returns, `success` holds the number of matching write relays
that connected and did not fail to publish, modulo `2^64`, whatever the
interleaving. -/
theorem Do_success (env : WriteEnv) (cmd : WriteCmd) (id : String) (relays : GoMap Relay)
    (sched : List Nat) (s : Shared) (hs : s.success = 0) :
    (Do env cmd id writeRequest relays sched s).2.success =
      successCount env relays % 2 ^ 64 := by
  have hinit : s.success = (((spawn writeRequest relays).map (credit env)).sum) % 2 ^ 64 := by
    have hz : ((spawn writeRequest relays).map (credit env)).sum = 0 := by
      apply List.sum_eq_zero
      intro x hx
      simp only [List.mem_map] at hx
      obtain ⟨w, hw, rfl⟩ := hx
      exact (spawn_wellFormed env _ _ w hw).2
    rw [hz, hs]
    rfl
  have h := runSched_inv env cmd id
    (sched ++ restSchedule (spawn writeRequest relays).length) (spawn writeRequest relays) s
    (fun w hw => (spawn_wellFormed env _ _ w hw).1) hinit
  have hd := Do_all_done env cmd id writeRequest relays sched s
  unfold Do at hd ⊢
  rw [h, sum_credit_done env _ hd, runSched_urls, spawn_urls, sum_doneCredit_matching]

theorem stepAt_nil (env : WriteEnv) (cmd : WriteCmd) (id : String) (i : Nat) (s : Shared) :
    stepAt env cmd id i [] s = ([], s) := by
  cases i <;> rfl

theorem runSched_nil (env : WriteEnv) (cmd : WriteCmd) (id : String) (sched : List Nat)
    (s : Shared) : runSched env cmd id sched [] s = ([], s) := by
  induction sched with
  | nil => rfl
  | cons i sched ih => simp [runSched, stepAt_nil, ih]

theorem spawn_eq_nil (r : Relay) (relays : GoMap Relay) (h : matching r relays = []) :
    spawn r relays = [] := by
  have := spawn_urls r relays
  rw [h] at this
  simpa [GoMap.keys] using this

theorem abortOut_effects (a : Abort) : (abortOut a).effects = [] := by
  cases a <;> rfl

theorem fanOut_panicked (env : WriteEnv) (cmd : WriteCmd) (id : String) (cfg : Config)
    (sched : List Nat) (signed : Nat) :
    (fanOut env cmd id cfg sched signed).panicked = false := by
  unfold fanOut
  simp only []
  split_ifs <;> rfl

theorem fanOut_err (env : WriteEnv) (cmd : WriteCmd) (id : String) (cfg : Config)
    (sched : List Nat) (signed : Nat) (hlen : cfg.Relays.length < 2 ^ 63) :
    (fanOut env cmd id cfg sched signed).err =
      if successCount env cfg.Relays = 0 then some (failureMessage cmd) else none := by
  have hsucc := Do_success env cmd id cfg.Relays sched
    { first := true, success := 0, signs := signed, trace := [] } rfl
  have hle : successCount env cfg.Relays ≤ cfg.Relays.length := List.length_filter_le _ _
  have hmod : successCount env cfg.Relays % 2 ^ 64 = successCount env cfg.Relays :=
    Nat.mod_eq_of_lt (by omega)
  rw [hmod] at hsucc
  unfold fanOut
  simp only [hsucc]
  by_cases h0 : successCount env cfg.Relays = 0
  · simp [h0]
  · simp [h0]

theorem fanOut_no_match (env : WriteEnv) (cmd : WriteCmd) (id : String) (cfg : Config)
    (sched : List Nat) (signed : Nat) (h : matching writeRequest cfg.Relays = []) :
    fanOut env cmd id cfg sched signed =
      { err := some (failureMessage cmd), panicked := false, signs := signed,
        effects := [] } := by
  simp [fanOut, Do, spawn_eq_nil _ _ h, runSched_nil]

/-- C2: for every write command (doPost, doReply, doRepost, doLike, doDelete)
that gets past its prelude (help check, decoding of the private key and of
`--id` with their type assertions, reading and validating the content), for
every registry a Go map can hold (`len` is an `int`), every
assignment of connect and publish outcomes to the relays and every
interleaving of the goroutines, the command returns its error "cannot
post/reply/repost/like/delete" if and only if the number of matching write
relays that connected and whose publish status was not `PublishStatusFailed`
is 0; if there is at least one such relay it returns `nil`; and it returns
rather than panics. -/
theorem C2_write_fails_iff_no_success (env : WriteEnv) (cmd : WriteCmd) (fl : Flags)
    (cfg : Config) (sched : List Nat) (signed : Nat)
    (hpre : prelude env cmd fl cfg = .ok signed)
    (hlen : cfg.Relays.length < 2 ^ 63) :
    ((runWrite env cmd fl cfg sched).err = some (failureMessage cmd) ↔
        successCount env cfg.Relays = 0)
      ∧ (1 ≤ successCount env cfg.Relays → (runWrite env cmd fl cfg sched).err = none)
      ∧ (runWrite env cmd fl cfg sched).panicked = false := by
  have h : (runWrite env cmd fl cfg sched).err =
      if successCount env cfg.Relays = 0 then some (failureMessage cmd) else none := by
    simp only [runWrite, hpre]
    exact fanOut_err env cmd fl.id cfg sched signed hlen
  have hp : (runWrite env cmd fl cfg sched).panicked = false := by
    simp only [runWrite, hpre]
    exact fanOut_panicked env cmd fl.id cfg sched signed
  rw [h]
  refine ⟨?_, ?_, hp⟩
  · by_cases h0 : successCount env cfg.Relays = 0 <;> simp [h0]
  · intro h1
    have : successCount env cfg.Relays ≠ 0 := by omega
    simp [this]

/-- C2, at concrete inputs: `algia post hello` with one relay down and one up
returns `nil`, under an interleaving that alternates the two goroutines; so
does `algia like --id note1`, whose id decodes to a string. -/
theorem C2_witness :
    prelude (plainWriteEnv ["wss://b"]) WriteCmd.post (plainFlags "" ["hello"])
        (configWith twoWriteRelays) = .ok 1
      ∧ prelude (plainWriteEnv ["wss://b"]) WriteCmd.like (plainFlags "note1" [])
        (configWith twoWriteRelays) = .ok 0
      ∧ (configWith twoWriteRelays).Relays.length < 2 ^ 63
      ∧ 1 ≤ successCount (plainWriteEnv ["wss://b"]) (configWith twoWriteRelays).Relays
      ∧ (doPost (plainWriteEnv ["wss://b"]) (plainFlags "" ["hello"])
          (configWith twoWriteRelays) [0, 1, 0, 1]).err = none
      ∧ (doLike (plainWriteEnv ["wss://b"]) (plainFlags "note1" [])
          (configWith twoWriteRelays) [0, 1, 0, 1]).err = none :=
  ⟨by rfl, by rfl, by decide, by decide,
    (C2_write_fails_iff_no_success (plainWriteEnv ["wss://b"]) WriteCmd.post
      (plainFlags "" ["hello"]) (configWith twoWriteRelays) [0, 1, 0, 1] 1 (by rfl)
      (by decide)).2.1 (by decide),
    (C2_write_fails_iff_no_success (plainWriteEnv ["wss://b"]) WriteCmd.like
      (plainFlags "note1" []) (configWith twoWriteRelays) [0, 1, 0, 1] 0 (by rfl)
      (by decide)).2.1 (by decide)⟩

/-! ## Theorems: the prelude of the write commands -/

/-- The panics of the unguarded type assertions are part of the model: `algia
like --id nevent1` dies at `tmp.(string)` (line 379) and `algia post hello`
with a private key that decodes to a pointer record dies at `s.(string)`
(line 183); neither reaches the fan-out. -/
theorem pointer_values_panic :
    (doLike (plainWriteEnv ["wss://a"]) (plainFlags "nevent1" [])
        (configWith twoWriteRelays) []).panicked = true
      ∧ (doLike (plainWriteEnv ["wss://a"]) (plainFlags "nevent1" [])
        (configWith twoWriteRelays) []).effects = []
      ∧ (doPost (plainWriteEnv ["wss://a"]) (plainFlags "" ["hello"])
        { configWith twoWriteRelays with PrivateKey := "nevent1" } []).panicked = true
      ∧ (doPost (plainWriteEnv ["wss://a"]) (plainFlags "" ["hello"])
        { configWith twoWriteRelays with PrivateKey := "nevent1" } []).effects = [] := by
  refine ⟨by decide, by decide, by decide, by decide⟩

/-! ## Theorems: no matching relay -/

theorem readCommand_no_match (env : Env) (request : Relay) (mkFilter : List String → Filter)
    (cfg : Config) (h : matching request cfg.Relays = []) :
    readCommand env request mkFilter cfg =
      { err := some "cannot connect relays", cfg := cfg, effects := [] } := by
  have h1 := FindRelay_result env.RelayConnect request cfg.Relays
  have h2 := FindRelay_attempts env.RelayConnect request cfg.Relays
  rw [h] at h1 h2
  simp only [GoMap.keys, List.map_nil, List.find?_nil] at h1
  simp only [GoMap.keys, List.map_nil, List.find?_nil, List.takeWhile_nil, Option.toList,
    List.append_nil] at h2
  simp [readCommand, h1, h2]

/-- C3 (as stated, refuted): `algia post hello` on a registry whose only relay
is read-only has no matching relay, makes no connection attempt, and returns
"cannot post", not "cannot connect relays". -/
theorem C3_write_counterexample :
    matching writeRequest
        (configWith [("wss://r", { Read := true, Write := false, Search := false })]).Relays = []
      ∧ (doPost (plainWriteEnv ["wss://r"]) (plainFlags "" ["hello"])
          (configWith [("wss://r", { Read := true, Write := false, Search := false })]) []).err
          = some "cannot post"
      ∧ (doPost (plainWriteEnv ["wss://r"]) (plainFlags "" ["hello"])
          (configWith [("wss://r", { Read := true, Write := false, Search := false })]) []).err
          ≠ some "cannot connect relays" := by
  refine ⟨by decide, by decide, by decide⟩

/-- C3 (amended): for every registry in which no relay gets past the filter
for the request, no connection is attempted; the read commands (doTimeline
with the read request, doSearch with the search request) return the error
"cannot connect relays", and a write command that reaches its fan-out (its
prelude neither returns nor panics in a type assertion on the decoded private
key or `--id`) returns its own error "cannot post/reply/repost/like/delete". -/
theorem C3_no_matching_relay (env : Env) (wenv : WriteEnv) (n : Int) (args : List String)
    (cmd : WriteCmd) (fl : Flags) (sched : List Nat) (signed : Nat) (cfg : Config) :
    (matching readRequest cfg.Relays = [] →
        (doTimeline env n cfg).err = some "cannot connect relays"
          ∧ (doTimeline env n cfg).effects = [])
      ∧ (matching searchRequest cfg.Relays = [] →
        (doSearch env n args cfg).err = some "cannot connect relays"
          ∧ (doSearch env n args cfg).effects = [])
      ∧ (matching writeRequest cfg.Relays = [] → prelude wenv cmd fl cfg = .ok signed →
        (runWrite wenv cmd fl cfg sched).err = some (failureMessage cmd)
          ∧ (runWrite wenv cmd fl cfg sched).panicked = false
          ∧ (runWrite wenv cmd fl cfg sched).effects = []) := by
  refine ⟨?_, ?_, ?_⟩
  · intro h
    simp [doTimeline, readCommand_no_match env _ _ cfg h]
  · intro h
    simp [doSearch, readCommand_no_match env _ _ cfg h]
  · intro h hpre
    simp [runWrite, hpre, fanOut_no_match wenv cmd fl.id cfg sched signed h]

/-- C3, at concrete inputs: a registry with one write-only relay for the read
commands, and with one read-only relay for `algia delete`. -/
theorem C3_witness :
    (matching readRequest
          (configWith [("wss://w", { Read := false, Write := true, Search := false })]).Relays = []
        ∧ (doTimeline (quietEnv 0 0) 30
            (configWith [("wss://w", { Read := false, Write := true, Search := false })])).effects
            = [])
      ∧ (matching searchRequest
          (configWith [("wss://w", { Read := false, Write := true, Search := false })]).Relays = []
        ∧ (doSearch (quietEnv 0 0) 30 ["x"]
            (configWith [("wss://w", { Read := false, Write := true, Search := false })])).err
            = some "cannot connect relays")
      ∧ (matching writeRequest
          (configWith [("wss://r", { Read := true, Write := false, Search := false })]).Relays = []
        ∧ prelude (plainWriteEnv []) WriteCmd.delete (plainFlags "id" [])
            (configWith [("wss://r", { Read := true, Write := false, Search := false })]) = .ok 1
        ∧ (runWrite (plainWriteEnv []) WriteCmd.delete (plainFlags "id" [])
            (configWith [("wss://r", { Read := true, Write := false, Search := false })]) [0]).err
            = some "cannot delete") :=
  ⟨⟨by decide,
    ((C3_no_matching_relay (quietEnv 0 0) (plainWriteEnv []) 30 ["x"] WriteCmd.delete
      (plainFlags "id" []) [0] 1
      (configWith [("wss://w", { Read := false, Write := true, Search := false })])).1
        (by decide)).2⟩,
   ⟨by decide,
    ((C3_no_matching_relay (quietEnv 0 0) (plainWriteEnv []) 30 ["x"] WriteCmd.delete
      (plainFlags "id" []) [0] 1
      (configWith [("wss://w", { Read := false, Write := true, Search := false })])).2.1
        (by decide)).1⟩,
   ⟨by decide, by rfl,
    ((C3_no_matching_relay (quietEnv 0 0) (plainWriteEnv []) 30 ["x"] WriteCmd.delete
      (plainFlags "id" []) [0] 1
      (configWith [("wss://r", { Read := true, Write := false, Search := false })])).2.2
        (by decide) (by rfl)).1⟩⟩

/-! ## Theorems: empty content -/

theorem dropWhile_eq_nil_of_forall {α : Type} (p : α → Bool) (l : List α)
    (h : ∀ x ∈ l.dropWhile p, p x = true) : l.dropWhile p = [] := by
  induction l with
  | nil => rfl
  | cons a t ih =>
    by_cases ha : p a = true
    · simp only [List.dropWhile_cons_of_pos ha] at h ⊢
      exact ih h
    · exfalso
      have hd : (a :: t).dropWhile p = a :: t := by simp [List.dropWhile_cons, ha]
      rw [hd] at h
      exact ha (h a (List.mem_cons_self _ _))

theorem TrimSpace_eq_empty_iff (s : String) :
    TrimSpace s = "" ↔ ∀ ch ∈ s.data, isSpace ch = true := by
  have hmk : ∀ l : List Char, String.mk l = "" ↔ l = [] := by
    intro l
    constructor
    · intro h
      exact congrArg String.data h
    · intro h
      rw [h]
  unfold TrimSpace
  rw [hmk, List.reverse_eq_nil_iff]
  constructor
  · intro h
    have h1 : ∀ x ∈ (s.data.dropWhile isSpace).reverse, isSpace x = true := by
      simpa [List.dropWhile_eq_nil_iff] using h
    have h2 : s.data.dropWhile isSpace = [] := by
      apply dropWhile_eq_nil_of_forall
      intro x hx
      exact h1 x (List.mem_reverse.2 hx)
    simpa [List.dropWhile_eq_nil_iff] using h2
  · intro h
    have h2 : s.data.dropWhile isSpace = [] := by
      simpa [List.dropWhile_eq_nil_iff] using h
    simp [h2]

/-- C6 (as stated, refuted): `algia post` with no argument and no `--stdin` has
the empty content (no arguments joined), yet doPost returns what
`cli.ShowSubcommandHelp` returns, here `nil`, not the error "content is
empty". -/
theorem C6_no_arguments_counterexample :
    readContent (plainWriteEnv []) (plainFlags "" []) = .ok ""
      ∧ (doPost (plainWriteEnv []) (plainFlags "" []) (configWith twoWriteRelays) []).err = none
      ∧ (doPost (plainWriteEnv []) (plainFlags "" []) (configWith twoWriteRelays) []).err
          ≠ some "content is empty" := by
  refine ⟨by rfl, by decide, by decide⟩

/-- C6 (amended): for every invocation of doPost whose content (stdin bytes, or
the arguments joined with a newline) is empty or consists only of white
space, `Config.Do` is never reached and no call leaves the process, whatever
the registry contains; and whenever `--stdin` is set or at least one argument
is given and the key block succeeds (the private key decodes to a string, from
which the public key is derived and encoded), doPost returns the error
"content is empty" and does not panic.  A private key that decodes to a value
that is not a string is outside this last part: there the process panics. -/
theorem C6_blank_content_rejected (env : WriteEnv) (fl : Flags) (cfg : Config)
    (sched : List Nat) (content : String)
    (hc : readContent env fl = .ok content)
    (hws : ∀ ch ∈ content.data, isSpace ch = true) :
    (doPost env fl cfg sched).effects = []
      ∧ connectCount (doPost env fl cfg sched).effects = 0
      ∧ ((fl.stdin = true ∨ fl.args ≠ []) → (∃ keys, decodeKey env cfg = .ok keys) →
          (doPost env fl cfg sched).err = some "content is empty"
            ∧ (doPost env fl cfg sched).panicked = false) := by
  have htrim : (TrimSpace content == "") = true := by
    rw [beq_iff_eq]
    exact (TrimSpace_eq_empty_iff content).2 hws
  have heff : (doPost env fl cfg sched).effects = [] := by
    unfold doPost runWrite prelude
    simp only []
    split_ifs with h1
    · rfl
    · cases hk : decodeKey env cfg with
      | error a => exact abortOut_effects a
      | ok keys =>
        simp only [hc, htrim, if_true]
        exact abortOut_effects _
  refine ⟨heff, by rw [heff]; rfl, ?_⟩
  rintro hin ⟨keys, hk⟩
  have h1 : (!fl.stdin && fl.args.length == 0) = false := by
    rcases hin with h | h
    · simp [h]
    · have : fl.args.length ≠ 0 := by
        simpa [List.length_eq_zero] using h
      simp [this]
  unfold doPost runWrite prelude
  simp [h1, hk, hc, htrim, abortOut]

/-- C6, at a concrete input: `algia post "  "` (two blanks) with a valid key
returns "content is empty" and contacts no relay. -/
theorem C6_witness :
    readContent (plainWriteEnv ["wss://a"]) (plainFlags "" ["  "]) = .ok "  "
      ∧ ("  " : String).data.all isSpace = true
      ∧ (doPost (plainWriteEnv ["wss://a"]) (plainFlags "" ["  "])
          (configWith twoWriteRelays) [0, 1]).effects = []
      ∧ (doPost (plainWriteEnv ["wss://a"]) (plainFlags "" ["  "])
          (configWith twoWriteRelays) [0, 1]).err = some "content is empty" :=
  ⟨by rfl, by decide,
    (C6_blank_content_rejected (plainWriteEnv ["wss://a"]) (plainFlags "" ["  "])
      (configWith twoWriteRelays) [0, 1] "  " (by rfl) (by decide)).1,
    ((C6_blank_content_rejected (plainWriteEnv ["wss://a"]) (plainFlags "" ["  "])
      (configWith twoWriteRelays) [0, 1] "  " (by rfl) (by decide)).2.2
      (Or.inr (by decide)) ⟨("hex", "pub"), by rfl⟩).1⟩

/-! ## Theorems: the `first` flag of doRepost and doLike -/

/-- C8 (the code at the failing input): two write relays that both connect,
and the interleaving in which both goroutines evaluate `first.Load()` before
either executes `first.Store(false)`.  Both see `true`: `relay.QuerySync` is
called twice and `ev.Sign` is called twice, in doRepost and in doLike.  When
the goroutines run one after the other the query and the signature happen
once. -/
theorem C8_load_then_store_race :
    queryCount (doRepost (plainWriteEnv ["wss://a", "wss://b"]) (plainFlags "id" [])
        (configWith twoWriteRelays) [0, 0, 1, 1]).effects = 2
      ∧ (doRepost (plainWriteEnv ["wss://a", "wss://b"]) (plainFlags "id" [])
        (configWith twoWriteRelays) [0, 0, 1, 1]).signs = 2
      ∧ queryCount (doLike (plainWriteEnv ["wss://a", "wss://b"]) (plainFlags "id" [])
        (configWith twoWriteRelays) [0, 0, 1, 1]).effects = 2
      ∧ (doLike (plainWriteEnv ["wss://a", "wss://b"]) (plainFlags "id" [])
        (configWith twoWriteRelays) [0, 0, 1, 1]).signs = 2
      ∧ queryCount (doRepost (plainWriteEnv ["wss://a", "wss://b"]) (plainFlags "id" [])
        (configWith twoWriteRelays) []).effects = 1
      ∧ (doRepost (plainWriteEnv ["wss://a", "wss://b"]) (plainFlags "id" [])
        (configWith twoWriteRelays) []).signs = 1 := by
  refine ⟨by decide, by decide, by decide, by decide, by decide, by decide⟩

/-! ## Theorems: the `--relays` flag -/

theorem splitOn_ne_nil (sep : Char) (cs : List Char) : splitOn sep cs ≠ [] := by
  induction cs with
  | nil => simp [splitOn]
  | cons c cs ih =>
    unfold splitOn
    split_ifs
    · simp
    · cases h : splitOn sep cs with
      | nil => simp
      | cons piece pieces => simp

theorem intercalate_cons_cons (sep : List Char) (c : Char) (p : List Char)
    (ps : List (List Char)) :
    List.intercalate sep ((c :: p) :: ps) = c :: List.intercalate sep (p :: ps) := by
  cases ps with
  | nil => simp [List.intercalate, List.intersperse]
  | cons q qs => simp [List.intercalate, List.intersperse]

theorem intercalate_nil_cons (sep : List Char) (ps : List (List Char)) (h : ps ≠ []) :
    List.intercalate sep ([] :: ps) = sep ++ List.intercalate sep ps := by
  cases ps with
  | nil => exact absurd rfl h
  | cons q qs => simp [List.intercalate, List.intersperse]

theorem splitOn_intercalate (sep : Char) (cs : List Char) :
    List.intercalate [sep] (splitOn sep cs) = cs := by
  induction cs with
  | nil => simp [splitOn, List.intercalate, List.intersperse]
  | cons c cs ih =>
    by_cases hc : c = sep
    · subst hc
      simp only [splitOn, if_true]
      rw [intercalate_nil_cons _ _ (splitOn_ne_nil c cs), ih]
      rfl
    · cases h : splitOn sep cs with
      | nil => exact absurd h (splitOn_ne_nil sep cs)
      | cons piece pieces =>
        rw [h] at ih
        simp only [splitOn, hc, if_false, h]
        rw [intercalate_cons_cons, ih]

theorem splitOn_no_sep (sep : Char) (cs : List Char) :
    ∀ p ∈ splitOn sep cs, sep ∉ p := by
  induction cs with
  | nil => simp [splitOn]
  | cons c cs ih =>
    by_cases hc : c = sep
    · subst hc
      intro p hp
      simp only [splitOn, if_true, List.mem_cons] at hp
      rcases hp with rfl | hp
      · simp
      · exact ih p hp
    · cases h : splitOn sep cs with
      | nil => exact absurd h (splitOn_ne_nil sep cs)
      | cons piece pieces =>
        rw [h] at ih
        intro p hp
        simp only [splitOn, hc, if_false, h, List.mem_cons] at hp
        rcases hp with rfl | hp
        · have := ih piece (List.mem_cons_self _ _)
          simp only [List.mem_cons, not_or]
          exact ⟨Ne.symm hc, this⟩
        · exact ih p (List.mem_cons_of_mem _ hp)

theorem splitOn_length (sep : Char) (cs : List Char) :
    (splitOn sep cs).length = cs.count sep + 1 := by
  induction cs with
  | nil => rfl
  | cons c cs ih =>
    by_cases hc : c = sep
    · subst hc
      simp [splitOn, ih]
    · cases h : splitOn sep cs with
      | nil => exact absurd h (splitOn_ne_nil sep cs)
      | cons piece pieces =>
        rw [h] at ih
        have hne : (c == sep) = false := by simpa using hc
        simp only [splitOn, hc, if_false, h, List.length_cons, List.count_cons, hne] at ih ⊢
        simpa using ih

theorem Split_data (s : String) (sep : Char) :
    (Split s sep).map String.data = splitOn sep s.data := by
  unfold Split
  rw [List.map_map]
  have : (String.data ∘ String.mk) = id := by
    funext l
    rfl
  rw [this, List.map_id]

theorem Split_length_pos (s : String) (sep : Char) : 0 < (Split s sep).length := by
  unfold Split
  rw [List.length_map]
  exact List.length_pos.2 (splitOn_ne_nil sep s.data)

theorem GoMap.mem_set {β : Type} (m : GoMap β) (k : String) (v : β) (e : String × β)
    (h : e ∈ GoMap.set m k v) : e = (k, v) ∨ e ∈ m := by
  induction m with
  | nil =>
    left
    simpa [GoMap.set] using h
  | cons e₀ rest ih =>
    obtain ⟨k₀, v₀⟩ := e₀
    by_cases hk : k₀ = k
    · simp only [GoMap.set, hk, if_true, List.mem_cons] at h
      rcases h with h | h
      · exact Or.inl h
      · exact Or.inr (List.mem_cons_of_mem _ h)
    · simp only [GoMap.set, hk, if_false, List.mem_cons] at h
      rcases h with h | h
      · exact Or.inr (h ▸ List.mem_cons_self _ _)
      · rcases ih h with h' | h'
        · exact Or.inl h'
        · exact Or.inr (List.mem_cons_of_mem _ h')

theorem foldl_set_spec (pieces : List String) (m : GoMap Relay)
    (hnd : (GoMap.keys m).Nodup) (hval : ∀ e ∈ m, e.2 = flagRelay) :
    (GoMap.keys (pieces.foldl (fun m relay => GoMap.set m relay flagRelay) m)).Nodup
      ∧ (∀ k, k ∈ GoMap.keys (pieces.foldl (fun m relay => GoMap.set m relay flagRelay) m) ↔
          k ∈ GoMap.keys m ∨ k ∈ pieces)
      ∧ (∀ e ∈ pieces.foldl (fun m relay => GoMap.set m relay flagRelay) m,
          e.2 = flagRelay) := by
  induction pieces generalizing m with
  | nil => exact ⟨hnd, fun k => by simp, hval⟩
  | cons piece pieces ih =>
    have hval' : ∀ e ∈ GoMap.set m piece flagRelay, e.2 = flagRelay := by
      intro e he
      rcases GoMap.mem_set m piece flagRelay e he with h | h
      · rw [h]
      · exact hval e h
    obtain ⟨h1, h2, h3⟩ := ih (GoMap.set m piece flagRelay)
      (GoMap.nodup_keys_set m piece flagRelay hnd) hval'
    refine ⟨h1, ?_, h3⟩
    intro k
    simp only [List.foldl_cons, List.mem_cons]
    rw [h2, GoMap.mem_keys_set]
    tauto

theorem matching_eq_nil_of_all_skipped (r : Relay) (relays : GoMap Relay)
    (h : ∀ e ∈ relays, skipped r e.2 = true) : matching r relays = [] := by
  unfold matching
  rw [List.filter_eq_nil_iff]
  intro e he
  simp [h e he]

/-- C10: for every value of the `--relays` flag, once the configuration is
loaded the `Before` hook succeeds and replaces `cfg.Relays`, whatever was
loaded, by a registry with one entry per distinct comma-separated piece of the
flag (keys are not repeated; a key is present exactly when it is a piece), each
entry being read+write and not searchable.  The pieces are the cut of the flag
at its commas: joined with commas they give the flag back, none contains a
comma, and there is one more piece than there are commas, so `strings.Split`
never returns an empty slice.  For the empty flag the registry is the single
entry with endpoint ""; for the flag `wss://a,wss://b,wss://a` it is the two
entries `wss://a` and `wss://b`.  Consequently no relay matches the search
request and doSearch returns "cannot connect relays" without a connection
attempt. -/
theorem C10_relays_flag_replaces_registry (cfg : Config) (V : Bool) (flag : String)
    (env : Env) (n : Int) (args : List String) :
    ∃ cfg' : Config,
      Before (.ok cfg) V flag = .ok cfg'
        ∧ (∀ other : GoMap Relay, Before (.ok { cfg with Relays := other }) V flag = .ok cfg')
        ∧ (GoMap.keys cfg'.Relays).Nodup
        ∧ (∀ k, k ∈ GoMap.keys cfg'.Relays ↔ k ∈ Split flag (Char.ofNat 44))
        ∧ (∀ e ∈ cfg'.Relays, e.2 = { Read := true, Write := true, Search := false })
        ∧ Split flag (Char.ofNat 44) ≠ []
        ∧ List.intercalate [Char.ofNat 44] ((Split flag (Char.ofNat 44)).map String.data)
            = flag.data
        ∧ (∀ piece ∈ Split flag (Char.ofNat 44), Char.ofNat 44 ∉ piece.data)
        ∧ (Split flag (Char.ofNat 44)).length = flag.data.count (Char.ofNat 44) + 1
        ∧ (∃ c : Config, Before (.ok cfg) V "" = .ok c
            ∧ c.Relays = [("", { Read := true, Write := true, Search := false })])
        ∧ (∃ c : Config, Before (.ok cfg) V "wss://a,wss://b,wss://a" = .ok c
            ∧ c.Relays = [("wss://a", { Read := true, Write := true, Search := false }),
                          ("wss://b", { Read := true, Write := true, Search := false })])
        ∧ matching searchRequest cfg'.Relays = []
        ∧ (doSearch env n args cfg').err = some "cannot connect relays"
        ∧ (doSearch env n args cfg').effects = [] := by
  have hpos := Split_length_pos flag (Char.ofNat 44)
  obtain ⟨h1, h2, h3⟩ := foldl_set_spec (Split flag (Char.ofNat 44)) []
    (by simp [GoMap.keys]) (by simp)
  have hmatch : matching searchRequest
      ((Split flag (Char.ofNat 44)).foldl (fun m relay => GoMap.set m relay flagRelay) []) = [] := by
    apply matching_eq_nil_of_all_skipped
    intro e he
    rw [h3 e he]
    rfl
  refine ⟨{ cfg with
      verbose := V
      Relays := (Split flag (Char.ofNat 44)).foldl
        (fun m relay => GoMap.set m relay flagRelay) [] },
    ?_, ?_, h1, ?_, h3, ?_, ?_, ?_, ?_, ?_, ?_, hmatch, ?_, ?_⟩
  · simp [Before, hpos]
  · intro other
    simp [Before, hpos]
  · intro k
    rw [h2]
    simp [GoMap.keys]
  · exact List.ne_nil_of_length_pos hpos
  · rw [Split_data]
    exact splitOn_intercalate _ _
  · intro piece hp
    have hmem : piece.data ∈ (Split flag (Char.ofNat 44)).map String.data :=
      List.mem_map.2 ⟨piece, hp, rfl⟩
    rw [Split_data] at hmem
    exact splitOn_no_sep _ _ _ hmem
  · have := congrArg List.length (Split_data flag (Char.ofNat 44))
    rw [List.length_map] at this
    rw [this]
    exact splitOn_length _ _
  · exact ⟨{ cfg with verbose := V, Relays := [("", flagRelay)] }, by rfl, rfl⟩
  · exact ⟨{ cfg with verbose := V,
                      Relays := [("wss://a", flagRelay), ("wss://b", flagRelay)] }, by rfl, rfl⟩
  · unfold doSearch
    rw [readCommand_no_match env _ _ _ (by exact hmatch)]
  · unfold doSearch
    rw [readCommand_no_match env _ _ _ (by exact hmatch)]

end Algia
